import Mathlib

/-!
MatrixLib: fixed-dimension matrices of `int`.

A verification development for `include/matrixLib.hpp` and `include/utils.h`.

Modelling conventions.

* The scalar is the C++ `int` of the tests: a 32-bit two's-complement integer.
  `CInt` carries the range of `int` in its type; `+`, `-` and `*` on `int`
  are `CInt.add`, `CInt.sub` and `CInt.mul`, which wrap on overflow.
* `std::array<std::array<int, Cols>, Rows>` is a total function
  `Fin Rows → Fin Cols → CInt`; `a[i][j] = v` is `setCell a i j v`.
* A counted loop `for (size_t i = 0; i < n; ++i) body` is `forLoop n body`,
  a left fold over the indices `0, 1, ..., n-1` in ascending order.  A loop
  whose body can leave the function (`return`, `throw`) is `forLoopM`, a fold
  in `Except` that stops at the first exit.
* Functions that only read their arguments and return a value
  (`operator==`, `operator*`, the accessors of a `const` matrix, the
  constructors) are functions of the values read.  Member functions that write
  through `this` (`operator+=`, `operator-=`, `operator*=`, the assignments,
  writes through the mutable accessors) take references into a `Store` of
  objects, so that receiver and argument may be the same object; the
  `const int&` parameter of `operator*=` is a `ScalarRef`, which may denote an
  element of a matrix.
* An output stream is a state `S` with the behaviour `OStream S` of its
  insertions, so that `operator<<` formats as the caller's stream does; the
  `std::stringstream` that `to_string` creates is the text written so far, in
  the formatting state of a new stream.  `to_string` and `operator<<` take the
  proof of `0 < C` that their use of `_ColCount - 1` needs.
-/

namespace MatrixLib

/-! ## The scalar `int` -/

/-- Smallest value of `int`. -/
def INT_MIN : Int := -2147483648

/-- Largest value of `int`. -/
def INT_MAX : Int := 2147483647

/-- Reduction of a mathematical integer to the value of `int` congruent to it
modulo `2^32`. -/
def wrap (x : Int) : Int := (x + 2147483648) % 4294967296 - 2147483648

/-- A value of the C++ type `int`. -/
structure CInt where
  val : Int
  lo : INT_MIN ≤ val
  hi : val ≤ INT_MAX
deriving DecidableEq

namespace CInt

/-- Conversion of an integer to `int`. -/
def ofInt (x : Int) : CInt :=
  ⟨wrap x, by unfold wrap INT_MIN; omega, by unfold wrap INT_MAX; omega⟩

/-- The sum `a + b` on `int`. -/
def add (a b : CInt) : CInt := ofInt (a.val + b.val)

/-- The difference `a - b` on `int`. -/
def sub (a b : CInt) : CInt := ofInt (a.val - b.val)

/-- The product `a * b` on `int`. -/
def mul (a b : CInt) : CInt := ofInt (a.val * b.val)

/-- The negation `-a` on `int`. -/
def neg (a : CInt) : CInt := ofInt (-a.val)

instance : Zero CInt := ⟨ofInt 0⟩
instance : One CInt := ⟨ofInt 1⟩
instance : NatCast CInt := ⟨fun n => ofInt n⟩
instance : IntCast CInt := ⟨ofInt⟩
instance : Add CInt := ⟨add⟩
instance : Sub CInt := ⟨sub⟩
instance : Mul CInt := ⟨mul⟩
instance : Neg CInt := ⟨neg⟩
instance : SMul Nat CInt := ⟨fun n a => ofInt (n * a.val)⟩
instance : SMul Int CInt := ⟨fun n a => ofInt (n * a.val)⟩
instance : Pow CInt Nat := ⟨fun a n => ofInt (a.val ^ n)⟩
instance : Inhabited CInt := ⟨0⟩

/-- The residue of an `int` modulo `2^32`. -/
def toZMod (a : CInt) : ZMod 4294967296 := (a.val : ZMod 4294967296)

end CInt

/-! ## Exceptions and message formatting (`utils.h`) -/

/-- The exceptions of `<stdexcept>` that `utils.h` throws, with their `what()` text. -/
inductive Exception where
  | runtime_error (what : String)
  | invalid_argument (what : String)
  | out_of_range (what : String)
deriving DecidableEq

deriving instance DecidableEq for Except

namespace Utils

/-- The text `std::snprintf` produces for a format whose only conversion
specifier is `%zu`: each `%zu` is replaced by the decimal digits of the next
`size_t` argument, every other character is copied. -/
def snprintf : List Char → List Nat → List Char
  | '%' :: 'z' :: 'u' :: rest, a :: args => (Nat.repr a).toList ++ snprintf rest args
  | c :: rest, args => c :: snprintf rest args
  | [], _ => []

/-- The function `Utils::format_str(format, args...)`. -/
def format_str (format : String) (args : List Nat) : String :=
  String.mk (snprintf format.toList args)

/-- The function `Utils::throw_runtime_error(format, args...)`. -/
def throw_runtime_error {α : Type} (format : String) (args : List Nat) :
    Except Exception α :=
  Except.error (Exception.runtime_error (format_str format args))

/-- The function `Utils::throw_invalid_argument_error(format, args...)`. -/
def throw_invalid_argument_error {α : Type} (format : String) (args : List Nat) :
    Except Exception α :=
  Except.error (Exception.invalid_argument (format_str format args))

/-- The function `Utils::throw_out_of_range_error(format, args...)`. -/
def throw_out_of_range_error {α : Type} (format : String) (args : List Nat) :
    Except Exception α :=
  Except.error (Exception.out_of_range (format_str format args))

end Utils

/-! ## Arrays and loops -/

/-- The type `std::array<std::array<int, C>, R>`. -/
abbrev Data (R C : Nat) := Fin R → Fin C → CInt

/-- The array after the assignment `d[i][j] = v`. -/
def setCell {R C : Nat} (d : Data R C) (i : Fin R) (j : Fin C) (v : CInt) : Data R C :=
  Function.update d i (Function.update (d i) j v)

/-- The loop `for (size_t i = 0; i < n; ++i) body`, run on the state `s`. -/
def forLoop {σ : Type} (n : Nat) (body : Fin n → σ → σ) (s : σ) : σ :=
  (List.finRange n).foldl (fun s i => body i s) s

/-- The loop `for (size_t i = 0; i < n; ++i) body` whose body may leave the
function: `Except.error e` ends the loop with `e`. -/
def forLoopM {ε σ : Type} (n : Nat) (body : Fin n → σ → Except ε σ) (s : σ) : Except ε σ :=
  (List.finRange n).foldlM (fun s i => body i s) s

/-! ## The class `Matrix<int, R, C>` -/

/-- An object of class `Matrix<int, R, C>`: its only member is `data_`. -/
structure Matrix (R C : Nat) where
  data_ : Data R C

instance (R C : Nat) : DecidableEq (Matrix R C) := fun a b =>
  decidable_of_iff (∀ i j, a.data_ i j = b.data_ i j)
    ⟨fun h => by cases a; cases b; simp only [Matrix.mk.injEq]; funext i j; exact h i j,
     fun h => by subst h; intros; rfl⟩

namespace Matrix

variable {R C : Nat}

/-- The default constructor `Matrix() : data_{}`: value-initialisation sets
every `int` to zero. -/
def default_ctor : Matrix R C := ⟨fun _ _ => 0⟩

/-- The constructor `Matrix(std::initializer_list<std::initializer_list<int>> list)`. -/
def init_list_ctor (list : List (List CInt)) : Except Exception (Matrix R C) :=
  if hrows : list.length ≠ R then
    Utils.throw_invalid_argument_error
      "Expected %zu rows in initializer list, got %zu instead" [R, list.length]
  else
    (forLoopM R (fun i (d : Data R C) =>
      let row := list.get ⟨i.val, by have := i.isLt; omega⟩
      if hcols : row.length ≠ C then
        Utils.throw_invalid_argument_error
          "Expected %zu columns in initializer list, got %zu on row %zu" [C, row.length, i.val]
      else
        Except.ok (forLoop C (fun j d =>
          setCell d i j (row.get ⟨j.val, by have := j.isLt; omega⟩)) d))
      (default_ctor : Matrix R C).data_).map Matrix.mk

/-- The row-count message of the nested-list constructor. -/
def rowsMessage (R n : Nat) : String :=
  Utils.format_str "Expected %zu rows in initializer list, got %zu instead" [R, n]

/-- The column-count message of the nested-list constructor. -/
def colsMessage (C len i : Nat) : String :=
  Utils.format_str "Expected %zu columns in initializer list, got %zu on row %zu" [C, len, i]

/-- The constructor `Matrix(const std::array<std::array<int, C>, R>& data) : data_{data}`. -/
def array_ctor (data : Data R C) : Matrix R C := ⟨data⟩

/-- The copy constructor `Matrix(const Matrix& other) : Matrix(other.data_)`. -/
def copy_ctor (other : Matrix R C) : Matrix R C := array_ctor other.data_

/-- The member `operator[](size_t index) const`: the row `data_[index]`. -/
def operator_index_const (this : Matrix R C) (index : Nat) : Except Exception (Fin C → CInt) :=
  if h : index ≥ R then
    Utils.throw_out_of_range_error "Index %zu is out of bounds" [index]
  else
    Except.ok (this.data_ ⟨index, by omega⟩)

/-- The member `operator()(size_t indexOuter, size_t indexInner) const`.  The
comparisons `indexOuter < 0` and `indexInner < 0` are on `size_t`. -/
def operator_call_const (this : Matrix R C) (indexOuter indexInner : Nat) :
    Except Exception CInt :=
  if h₁ : indexOuter < 0 ∨ indexOuter ≥ R then
    Utils.throw_out_of_range_error "Index outer %zu is out of bounds" [indexOuter]
  else if h₂ : indexInner < 0 ∨ indexInner ≥ C then
    Utils.throw_out_of_range_error "index inner %zu is out of bounds" [indexInner]
  else
    Except.ok (this.data_ ⟨indexOuter, by omega⟩ ⟨indexInner, by omega⟩)

/-- The mutable member `operator[](size_t index)`.  The result is a reference
to the row `data_[index]` of the receiver, given by the index of that row. -/
def operator_index (_this : Matrix R C) (index : Nat) : Except Exception (Fin R) :=
  if h : index ≥ R then
    Utils.throw_out_of_range_error "Index %zu is out of bounds" [index]
  else
    Except.ok ⟨index, by omega⟩

/-- The mutable member `operator()(size_t indexOuter, size_t indexInner)`.  The
result is a reference to the element `data_[indexOuter][indexInner]` of the
receiver, given by the position of that element. -/
def operator_call (_this : Matrix R C) (indexOuter indexInner : Nat) :
    Except Exception (Fin R × Fin C) :=
  if h₁ : indexOuter ≥ R then
    Utils.throw_out_of_range_error "Index outer %zu is out of bounds" [indexOuter]
  else if h₂ : indexInner ≥ C then
    Utils.throw_out_of_range_error "index inner %zu is out of bounds" [indexInner]
  else
    Except.ok (⟨indexOuter, by omega⟩, ⟨indexInner, by omega⟩)

/-- The member `operator==(const Matrix& other) const`.  `Except.error b` is
`return b;` from inside the loops. -/
def operator_eq (this other : Matrix R C) : Bool :=
  match forLoopM R (fun i (_ : Unit) =>
      forLoopM C (fun j (_ : Unit) =>
        if this.data_ i j ≠ other.data_ i j then Except.error false else Except.ok ()) ()) () with
  | Except.error b => b
  | Except.ok _ => true

/-- The member `operator!=(const Matrix& other) const`. -/
def operator_ne (this other : Matrix R C) : Bool :=
  !(operator_eq this other)

end Matrix

/-- The free function `operator*(const Matrix<int, M, N>& lhs, const Matrix<int, N, P>& rhs)`;
the `static_assert` makes the inner dimensions one parameter `N`. -/
def operator_mul {M N P : Nat} (lhs : Matrix M N) (rhs : Matrix N P) : Matrix M P :=
  let ret : Matrix M P := Matrix.default_ctor
  let ret : Matrix M P :=
    ⟨forLoop M (fun i d => Function.update d i (fun _ => (0 : CInt))) ret.data_⟩
  let ret : Matrix M P :=
    ⟨forLoop M (fun i d =>
      forLoop P (fun j d =>
        forLoop N (fun k d =>
          setCell d i j (CInt.add (d i j) (CInt.mul (lhs.data_ i k) (rhs.data_ k j)))) d) d)
      ret.data_⟩
  ret

/-- The value `operator*` accumulates for one element: start from `0` and add
`lhs[i][k] * rhs[k][j]` for `k = 0, 1, ..., N-1` in ascending order. -/
def dotAscending {M N P : Nat} (lhs : Matrix M N) (rhs : Matrix N P) (i : Fin M) (j : Fin P) :
    CInt :=
  (List.finRange N).foldl
    (fun acc k => CInt.add acc (CInt.mul (lhs.data_ i k) (rhs.data_ k j))) 0

/-! ## Objects and references

`operator+=` and `operator-=` write through `this` and read through the
reference `other`, which may denote the same object.  Objects of class
`Matrix<int, R, C>` live in a store; a reference is the address of an object. -/

/-- The address of an object. -/
abbrev Ref := Nat

/-- The objects of class `Matrix<int, R, C>`: `obj p` is the object at address
`p`, and the addresses below `next` are those of the objects created so far. -/
structure Store (R C : Nat) where
  obj : Ref → Matrix R C
  next : Ref

namespace Store

variable {R C : Nat}

/-- The value of `p.data_[i][j]`. -/
def read (σ : Store R C) (p : Ref) (i : Fin R) (j : Fin C) : CInt :=
  (σ.obj p).data_ i j

/-- The store after `p.data_[i][j] = v`. -/
def write (σ : Store R C) (p : Ref) (i : Fin R) (j : Fin C) (v : CInt) : Store R C :=
  { σ with obj := Function.update σ.obj p ⟨setCell (σ.obj p).data_ i j v⟩ }

/-- Creation of a new object with value `m`: the store with the object and the
address of the object. -/
def alloc (σ : Store R C) (m : Matrix R C) : Store R C × Ref :=
  ({ obj := Function.update σ.obj σ.next m, next := σ.next + 1 }, σ.next)

/-- The store in which the object at `this` has the elements `d` and every
other object is as in `σ`. -/
def withData (σ : Store R C) (this : Ref) (d : Data R C) : Store R C :=
  { obj := Function.update σ.obj this ⟨d⟩, next := σ.next }

/-- The store with no object. -/
def empty : Store R C := { obj := fun _ => Matrix.default_ctor, next := 0 }

end Store

namespace Matrix

variable {R C : Nat}

/-- The member `operator+=(const Matrix& other)`, called on the object at
`this`; the result is the store after the call and the reference `*this`. -/
def operator_plus_eq (this other : Ref) (σ : Store R C) : Store R C × Ref :=
  let σ := forLoop R (fun i σ =>
    forLoop C (fun j σ =>
      σ.write this i j (CInt.add (σ.read this i j) (σ.read other i j))) σ) σ
  (σ, this)

/-- The member `operator-=(const Matrix& other)`, called on the object at
`this`; the result is the store after the call and the reference `*this`. -/
def operator_minus_eq (this other : Ref) (σ : Store R C) : Store R C × Ref :=
  let σ := forLoop R (fun i σ =>
    forLoop C (fun j σ =>
      σ.write this i j (CInt.sub (σ.read this i j) (σ.read other i j))) σ) σ
  (σ, this)

end Matrix

/-- The free function `operator+(const Matrix& lhs, const Matrix& rhs)`, whose
body is `return Matrix{lhs} += rhs;`: a temporary is copy-constructed from
`lhs`, `+=` is called on it, and the returned object is copy-constructed from
the reference that `+=` returns.  The result is the store after the call and
the address of the returned object. -/
def operator_plus {R C : Nat} (lhs rhs : Ref) (σ : Store R C) : Store R C × Ref :=
  let (σ, tmp) := σ.alloc (Matrix.copy_ctor (σ.obj lhs))
  let (σ, r) := Matrix.operator_plus_eq tmp rhs σ
  σ.alloc (Matrix.copy_ctor (σ.obj r))

/-- The free function `operator-(const Matrix& lhs, const Matrix& rhs)`, whose
body is `return Matrix{lhs} -= rhs;`. -/
def operator_minus {R C : Nat} (lhs rhs : Ref) (σ : Store R C) : Store R C × Ref :=
  let (σ, tmp) := σ.alloc (Matrix.copy_ctor (σ.obj lhs))
  let (σ, r) := Matrix.operator_minus_eq tmp rhs σ
  σ.alloc (Matrix.copy_ctor (σ.obj r))

/-! ## Construction, assignment and element writes on the store -/

namespace Matrix

variable {R C : Nat}

/-- The move constructor `Matrix(Matrix&& other) : Matrix(std::move(other.data_))`:
the array constructor takes its argument by `const&` and copies it. -/
def move_ctor (other : Matrix R C) : Matrix R C := array_ctor other.data_

/-- The declaration `Matrix c(other);`: a new object, copy-constructed from the
object at `other`. -/
def copy_construct (other : Ref) (σ : Store R C) : Store R C × Ref :=
  σ.alloc (copy_ctor (σ.obj other))

/-- The declaration `Matrix c(std::move(other));`: a new object,
move-constructed from the object at `other`. -/
def move_construct (other : Ref) (σ : Store R C) : Store R C × Ref :=
  σ.alloc (move_ctor (σ.obj other))

/-- The copy assignment `operator=(const Matrix& other)`, called on the object
at `this`: `this->data_ = other.data_; return *this;`. -/
def operator_assign (this other : Ref) (σ : Store R C) : Store R C × Ref :=
  (σ.withData this (σ.obj other).data_, this)

/-- The move assignment `operator=(Matrix&& other)`, called on the object at
`this`: `this->data_ = std::move(other.data_); return *this;`.  Moving a
`std::array` of `int` assigns every element and leaves the source as it is. -/
def operator_move_assign (this other : Ref) (σ : Store R C) : Store R C × Ref :=
  (σ.withData this (σ.obj other).data_, this)

/-- The statement `m(indexOuter, indexInner) = v;` on the object at `this`:
the mutable `operator()` yields a reference to an element, and the assignment
writes `v` there. -/
def assign_call (this : Ref) (indexOuter indexInner : Nat) (v : CInt) (σ : Store R C) :
    Except Exception (Store R C) :=
  match (σ.obj this).operator_call indexOuter indexInner with
  | Except.error e => Except.error e
  | Except.ok (i, j) => Except.ok (σ.write this i j v)

/-- The statement `m[index][col] = v;` on the object at `this`: the mutable
`operator[]` yields a reference to a row, and `std::array::operator[]`, which
requires `col < C`, a reference to the element that the assignment writes. -/
def assign_index (this : Ref) (index : Nat) (col : Fin C) (v : CInt) (σ : Store R C) :
    Except Exception (Store R C) :=
  match (σ.obj this).operator_index index with
  | Except.error e => Except.error e
  | Except.ok i => Except.ok (σ.write this i col v)

end Matrix

/-- The characters that `os << x` writes for an `int` on a stream in its
default formatting state: the decimal digits, after a minus sign when `x` is
negative. -/
def CInt.decimal (a : CInt) : String :=
  if a.val < 0 then "-" ++ Nat.repr a.val.natAbs else Nat.repr a.val.natAbs

/-- The free function `to_string(const Matrix& toPrint)`.  The stream `ss` is a
`std::stringstream` that the function creates, so it is in the formatting state
of a new stream, and it is given by the text written so far.  The loop bound `_ColCount - 1` and the element
`data_[i][_ColCount - 1]` need `0 < C`. -/
def to_string {R C : Nat} (hC : 0 < C) (toPrint : Matrix R C) : String :=
  let ss : String := ""
  let ss := forLoop R (fun i ss =>
    let ss := ss ++ "| "
    let ss := forLoop (C - 1) (fun j ss =>
      ss ++ (toPrint.data_ i ⟨j.val, by have := j.isLt; omega⟩).decimal ++ ", ") ss
    ss ++ (toPrint.data_ i ⟨C - 1, by omega⟩).decimal ++ " |\n") ss
  ss

/-- The behaviour of an output stream, a `std::ostream`.  A value of `S` is
the whole state of the stream: the characters written to it so far and
whatever decides how the next insertion is formatted (the formatting flags,
width, fill, locale, error bits).  Of that state `text` is the characters
written so far; `putStr os s` is the stream after `os << s` for a string
literal `s`, and `putInt os x` the stream after `os << x` for an `int`. -/
structure OStream (S : Type) where
  text : S → String
  putStr : S → String → S
  putInt : S → CInt → S

/-- The stream that is only its text, as a `std::stringstream` in the
formatting state it is created with: a string literal is appended as it is,
an `int` as its decimal digits. -/
def textStream : OStream String where
  text := fun os => os
  putStr := fun os s => os ++ s
  putInt := fun os x => os ++ x.decimal

/-- The setting of `std::ios_base::basefield`. -/
inductive Basefield where
  | dec
  | oct
  | hex
deriving DecidableEq

/-- The state of a stream whose formatting state differs from the default at
most in `basefield`, as after `os << std::hex`. -/
structure BaseStream where
  text : String
  basefield : Basefield

/-- The characters `os << x` writes for an `int` under a setting of
`basefield`: decimal digits with a minus sign for `std::dec`; for `std::oct`
and `std::hex` the digits, in base 8 or 16 with lower-case letters, of the
value converted to `unsigned int`. -/
def Basefield.digits (b : Basefield) (x : CInt) : String :=
  match b with
  | Basefield.dec => x.decimal
  | Basefield.oct => String.mk (Nat.toDigits 8 (x.val % 4294967296).toNat)
  | Basefield.hex => String.mk (Nat.toDigits 16 (x.val % 4294967296).toNat)

/-- The insertions on a stream whose formatting state differs from the default
at most in `basefield`; they leave `basefield` as it is. -/
def baseStream : OStream BaseStream where
  text := fun os => os.text
  putStr := fun os s => { os with text := os.text ++ s }
  putInt := fun os x => { os with text := os.text ++ os.basefield.digits x }

/-- The free function `operator<<(std::ostream& os, const Matrix& toPrint)` on
a stream of behaviour `k`; the result is the stream after the call.  Every
insertion is made on the caller's stream, in the state the caller and the
insertions before it left. -/
def operator_shl {S : Type} (k : OStream S) {R C : Nat} (hC : 0 < C) (os : S)
    (toPrint : Matrix R C) : S :=
  let os := forLoop R (fun i os =>
    let os := k.putStr os "| "
    let os := forLoop (C - 1) (fun j os =>
      k.putStr (k.putInt os (toPrint.data_ i ⟨j.val, by have := j.isLt; omega⟩)) ", ") os
    k.putStr (k.putInt os (toPrint.data_ i ⟨C - 1, by omega⟩)) " |\n") os
  os

/-- The rendering of one row as the specification words it: `| `, the elements
in decimal separated by `, `, then ` |` and a line break. -/
def renderRow {C : Nat} (row : Fin C → CInt) : String :=
  "| " ++ ", ".intercalate ((List.finRange C).map (fun j => (row j).decimal)) ++ " |\n"

/-- The rendering of a matrix as the specification words it: the renderings of
its rows, in order, one after the other. -/
def render {R C : Nat} (m : Matrix R C) : String :=
  String.join ((List.finRange R).map (fun i => renderRow (m.data_ i)))

/-- The expression `x + y` on two matrix values that are not yet objects of the
store, such as the products in `(A * B) + (A * C)`: both become objects, and
`operator+` is called on them; the value of the object it returns. -/
def plusOfValues {R C : Nat} (τ : Store R C) (x y : Matrix R C) : Matrix R C :=
  let (τ, p) := τ.alloc x
  let (τ, q) := τ.alloc y
  let (τ, r) := operator_plus p q τ
  τ.obj r

/-! ## Matrices of the tests -/

/-- Builds a matrix from rows of integer literals. -/
def lit {R C : Nat} (rows : Fin R → Fin C → Int) : Matrix R C := ⟨fun i j => CInt.ofInt (rows i j)⟩

/-- The matrix `mat1` of `test_arithmetic_operations`, before it is scaled. -/
def mat1 : Matrix 2 2 := lit ![![1, 2], ![3, 4]]

/-- The matrix `mat2` of `test_arithmetic_operations`. -/
def mat2 : Matrix 2 2 := lit ![![5, 6], ![7, 8]]

/-- The matrix `mat6` of `test_arithmetic_operations`. -/
def mat6 : Matrix 2 3 := lit ![![1, 2, 3], ![4, 5, 6]]

/-- The matrix `mat7` of `test_arithmetic_operations`. -/
def mat7 : Matrix 3 2 := lit ![![7, 8], ![9, 10], ![11, 12]]

/-- The matrix `mat` of `test_accessors`. -/
def accessorsMat : Matrix 3 3 := lit ![![1, 2, 3], ![4, 5, 6], ![7, 8, 9]]

/-- A store whose objects are `mat1`, at address `0`, and `mat2`, at address `1`. -/
def arithmeticStore : Store 2 2 := ((Store.empty.alloc mat1).1.alloc mat2).1

/-- The matrix `matrixA` of the example program. -/
def matrixA : Matrix 3 4 := lit ![![1, 2, 3, 4], ![6, 5, 4, 3], ![1, 3, 2, 5]]

/-- The matrix `matrixB` of the example program. -/
def matrixB : Matrix 4 2 := lit ![![1, 3], ![2, 4], ![3, 5], ![6, 2]]

/-- The matrix `matrixC` of the example program. -/
def matrixC : Matrix 4 2 := lit ![![0, 7], ![1, 10], ![13, 12], ![5, 2]]

/-- A store whose objects are `matrixB`, at address `0`, and `matrixC`, at
address `1`. -/
def exampleStore : Store 4 2 := ((Store.empty.alloc matrixB).1.alloc matrixC).1

/-- A store whose objects are `mat1`, `mat2` and the matrix `c` of
`test_assignment`, at the addresses `0`, `1` and `2`. -/
def assignmentStore : Store 2 2 := (arithmeticStore.alloc (lit ![![9, 10], ![11, 12]])).1

/-! ## Arithmetic of `int` -/

theorem wrap_of_range {x : Int} (h₁ : INT_MIN ≤ x) (h₂ : x ≤ INT_MAX) : wrap x = x := by
  unfold INT_MIN at h₁; unfold INT_MAX at h₂; unfold wrap; omega

theorem wrap_eq_wrap_iff (x y : Int) : wrap x = wrap y ↔ (4294967296 : Int) ∣ x - y := by
  unfold wrap; omega

namespace CInt

theorem ext {a b : CInt} (h : a.val = b.val) : a = b := by
  cases a; cases b; simp only [mk.injEq]; exact h

theorem ofInt_val (a : CInt) : ofInt a.val = a :=
  ext (wrap_of_range a.lo a.hi)

theorem val_ofInt (x : Int) : (ofInt x).val = wrap x := rfl

theorem toZMod_ofInt (x : Int) : toZMod (ofInt x) = (x : ZMod 4294967296) := by
  unfold toZMod
  rw [ZMod.intCast_eq_intCast_iff_dvd_sub, val_ofInt]
  unfold wrap; push_cast; omega

theorem toZMod_injective : Function.Injective toZMod := by
  intro a b h
  unfold toZMod at h
  rw [ZMod.intCast_eq_intCast_iff_dvd_sub] at h
  have h₁ := a.lo; have h₂ := a.hi; have h₃ := b.lo; have h₄ := b.hi
  unfold INT_MIN at h₁ h₃; unfold INT_MAX at h₂ h₄
  push_cast at h
  exact ext (by omega)

instance : CommRing CInt :=
  toZMod_injective.commRing toZMod
    (by show toZMod (ofInt 0) = 0; rw [toZMod_ofInt]; simp)
    (by show toZMod (ofInt 1) = 1; rw [toZMod_ofInt]; simp)
    (fun a b => by show toZMod (ofInt _) = _; rw [toZMod_ofInt]; simp [toZMod])
    (fun a b => by show toZMod (ofInt _) = _; rw [toZMod_ofInt]; simp [toZMod])
    (fun a => by show toZMod (ofInt _) = _; rw [toZMod_ofInt]; simp [toZMod])
    (fun a b => by show toZMod (ofInt _) = _; rw [toZMod_ofInt]; simp [toZMod])
    (fun n a => by show toZMod (ofInt _) = _; rw [toZMod_ofInt]; simp [toZMod])
    (fun n a => by show toZMod (ofInt _) = _; rw [toZMod_ofInt]; simp [toZMod])
    (fun a n => by show toZMod (ofInt _) = _; rw [toZMod_ofInt]; simp [toZMod])
    (fun n => by show toZMod (ofInt _) = _; rw [toZMod_ofInt]; simp)
    (fun n => by show toZMod (ofInt _) = _; rw [toZMod_ofInt])

theorem add_eq (a b : CInt) : add a b = a + b := rfl
theorem sub_eq (a b : CInt) : sub a b = a - b := rfl
theorem mul_eq (a b : CInt) : mul a b = a * b := rfl
theorem val_intCast (x : Int) : ((x : Int) : CInt).val = wrap x := rfl

theorem intCast_val (a : CInt) : ((a.val : Int) : CInt) = a := ofInt_val a

end CInt

/-! ## Loops over arrays -/

section Loops

variable {R C : Nat}

theorem setCell_same (d : Data R C) (i : Fin R) (j : Fin C) (v : CInt) :
    setCell d i j v i j = v := by
  simp [setCell]

theorem setCell_self (d : Data R C) (i : Fin R) (j : Fin C) : setCell d i j (d i j) = d := by
  simp [setCell]

theorem setCell_setCell (d : Data R C) (i : Fin R) (j : Fin C) (v w : CInt) :
    setCell (setCell d i j v) i j w = setCell d i j w := by
  simp [setCell]

/-- A fold that rewrites the entry at each index of a duplicate-free list from
the entry's own value rewrites exactly the listed entries, each once. -/
theorem foldl_update_apply {ι β : Type} [DecidableEq ι] (g : ι → β → β) (l : List ι)
    (hl : l.Nodup) (s : ι → β) (y : ι) :
    (l.foldl (fun s x => Function.update s x (g x (s x))) s) y
      = if y ∈ l then g y (s y) else s y := by
  induction l generalizing s with
  | nil => simp
  | cons x xs ih =>
    have hx : x ∉ xs := (List.nodup_cons.mp hl).1
    rw [List.foldl_cons, ih (List.nodup_cons.mp hl).2]
    by_cases hy : y = x
    · subst hy; simp [hx]
    · simp [hy, Function.update_noteq hy]

theorem forLoop_update_apply {n : Nat} {β : Type} (g : Fin n → β → β) (s : Fin n → β)
    (y : Fin n) :
    forLoop n (fun i s => Function.update s i (g i (s i))) s y = g y (s y) := by
  unfold forLoop
  rw [foldl_update_apply g _ (List.nodup_finRange n), if_pos (List.mem_finRange y)]

/-- A loop over the columns of row `i` changes row `i` only. -/
theorem foldl_setCell_row (i : Fin R) (h : Fin C → CInt → CInt) (l : List (Fin C))
    (d : Data R C) :
    l.foldl (fun d j => setCell d i j (h j (d i j))) d
      = Function.update d i (l.foldl (fun r j => Function.update r j (h j (r j))) (d i)) := by
  induction l generalizing d with
  | nil => simp
  | cons x xs ih => rw [List.foldl_cons, ih]; simp [setCell]

/-- The nested loop `for i, for j: d[i][j] = g i j (d[i][j])` rewrites every
element from its own old value. -/
theorem forLoop_setCell_apply (g : Fin R → Fin C → CInt → CInt) (d : Data R C)
    (a : Fin R) (b : Fin C) :
    forLoop R (fun i d => forLoop C (fun j d => setCell d i j (g i j (d i j))) d) d a b
      = g a b (d a b) := by
  have step : ∀ (i : Fin R) (d : Data R C),
      forLoop C (fun j d => setCell d i j (g i j (d i j))) d
        = Function.update d i (forLoop C (fun j r => Function.update r j (g i j (r j))) (d i)) :=
    fun i d => foldl_setCell_row i (g i) _ d
  simp only [step]
  rw [forLoop_update_apply (fun i r => forLoop C (fun j r => Function.update r j (g i j (r j))) r)]
  exact forLoop_update_apply (g a) (d a) b

/-- A loop that rewrites one element repeatedly folds the rewrites on that
element. -/
theorem foldl_setCell_same {κ : Type} (i : Fin R) (j : Fin C) (φ : κ → CInt → CInt)
    (l : List κ) (d : Data R C) :
    l.foldl (fun d k => setCell d i j (φ k (d i j))) d
      = setCell d i j (l.foldl (fun v k => φ k v) (d i j)) := by
  induction l generalizing d with
  | nil => simp [setCell_self]
  | cons x xs ih => rw [List.foldl_cons, ih, setCell_same, setCell_setCell, List.foldl_cons]

end Loops

/-! ## The matrix product -/

theorem operator_mul_apply {M N P : Nat} (lhs : Matrix M N) (rhs : Matrix N P)
    (i : Fin M) (j : Fin P) :
    (operator_mul lhs rhs).data_ i j = dotAscending lhs rhs i j := by
  have inner : ∀ (i : Fin M) (j : Fin P) (d : Data M P),
      forLoop N (fun k d =>
          setCell d i j (CInt.add (d i j) (CInt.mul (lhs.data_ i k) (rhs.data_ k j)))) d
        = setCell d i j ((List.finRange N).foldl
            (fun v k => CInt.add v (CInt.mul (lhs.data_ i k) (rhs.data_ k j))) (d i j)) :=
    fun i j d => foldl_setCell_same i j
      (fun k v => CInt.add v (CInt.mul (lhs.data_ i k) (rhs.data_ k j))) _ d
  unfold operator_mul dotAscending
  simp only [inner]
  rw [forLoop_setCell_apply (fun i j v => (List.finRange N).foldl
    (fun v k => CInt.add v (CInt.mul (lhs.data_ i k) (rhs.data_ k j))) v)]
  rw [forLoop_update_apply (fun _ _ => fun _ => (0 : CInt))]

theorem foldl_add_eq_sum {ι : Type} (f : ι → CInt) (l : List ι) (a : CInt) :
    l.foldl (fun acc k => CInt.add acc (f k)) a = a + (l.map f).sum := by
  induction l generalizing a with
  | nil => simp
  | cons x xs ih => rw [List.foldl_cons, ih, CInt.add_eq, List.map_cons, List.sum_cons, add_assoc]

theorem dotAscending_eq_sum {M N P : Nat} (lhs : Matrix M N) (rhs : Matrix N P)
    (i : Fin M) (j : Fin P) :
    dotAscending lhs rhs i j = ∑ k : Fin N, lhs.data_ i k * rhs.data_ k j := by
  unfold dotAscending
  rw [foldl_add_eq_sum (fun k => CInt.mul (lhs.data_ i k) (rhs.data_ k j)), zero_add,
    Fin.sum_univ_def]
  rfl

theorem CInt.val_sum {ι : Type} (s : Finset ι) (f : ι → CInt) :
    (∑ k ∈ s, f k).val = wrap (∑ k ∈ s, (f k).val) := by
  have h : (∑ k ∈ s, f k) = ((∑ k ∈ s, (f k).val : Int) : CInt) := by
    rw [Int.cast_sum]; simp only [CInt.intCast_val]
  rw [h, CInt.val_intCast]

theorem CInt.val_mul (a b : CInt) : (a * b).val = wrap (a.val * b.val) := rfl

theorem wrap_sum_wrap {ι : Type} (s : Finset ι) (f : ι → Int) :
    wrap (∑ k ∈ s, wrap (f k)) = wrap (∑ k ∈ s, f k) := by
  rw [wrap_eq_wrap_iff, ← Finset.sum_sub_distrib]
  apply Finset.dvd_sum
  intro k _
  unfold wrap; omega

/-- C1: every element `(i, j)` of `lhs * rhs` is the value obtained by starting
from `0` and adding `lhs(i,k) * rhs(k,j)` for `k = 0, ..., N-1` in ascending
order with the `+` and `*` of `int`; that value is the sum of the products
reduced to the range of `int`; and the two examples of the specification
evaluate as stated. -/
theorem C1_operator_mul_elements :
    (∀ (M N P : Nat) (lhs : Matrix M N) (rhs : Matrix N P) (i : Fin M) (j : Fin P),
      (operator_mul lhs rhs).data_ i j
          = (List.finRange N).foldl
              (fun acc k => CInt.add acc (CInt.mul (lhs.data_ i k) (rhs.data_ k j))) 0
        ∧ ((operator_mul lhs rhs).data_ i j).val
          = wrap (∑ k : Fin N, (lhs.data_ i k).val * (rhs.data_ k j).val))
    ∧ operator_mul mat6 mat7 = lit ![![58, 64], ![139, 154]]
    ∧ operator_mul mat1 mat2 = lit ![![19, 22], ![43, 50]] := by
  refine ⟨fun M N P lhs rhs i j => ⟨operator_mul_apply lhs rhs i j, ?_⟩, by decide, by decide⟩
  rw [operator_mul_apply, dotAscending_eq_sum, CInt.val_sum]
  simp only [CInt.val_mul]
  exact wrap_sum_wrap _ _

/-! ## Equality -/

/-- A loop whose body either goes on or leaves with `return false` goes through
exactly when every iteration goes on, and otherwise leaves with `return false`. -/
theorem foldlM_check {ι : Type} (body : ι → Except Bool Unit)
    (hb : ∀ i, body i = Except.ok () ∨ body i = Except.error false) (l : List ι) :
    (l.foldlM (fun (_ : Unit) i => body i) () = Except.ok () ∧ ∀ i ∈ l, body i = Except.ok ())
    ∨ (l.foldlM (fun (_ : Unit) i => body i) () = Except.error false
        ∧ ∃ i ∈ l, body i = Except.error false) := by
  induction l with
  | nil => left; exact ⟨rfl, fun i hi => by simp at hi⟩
  | cons x xs ih =>
    rw [List.foldlM_cons]
    rcases hb x with hx | hx
    · rw [hx]
      rcases ih with ⟨h₁, h₂⟩ | ⟨h₁, k, hk, hk'⟩
      · left
        refine ⟨h₁, fun i hi => ?_⟩
        rcases List.mem_cons.mp hi with rfl | hi
        · exact hx
        · exact h₂ i hi
      · right
        exact ⟨h₁, k, List.mem_cons_of_mem _ hk, hk'⟩
    · rw [hx]
      right
      exact ⟨rfl, x, List.mem_cons_self _ _, hx⟩

theorem forLoopM_check_ok_iff {n : Nat} (body : Fin n → Except Bool Unit)
    (hb : ∀ i, body i = Except.ok () ∨ body i = Except.error false) :
    (forLoopM n (fun i (_ : Unit) => body i) () = Except.ok () ↔ ∀ i, body i = Except.ok ())
    ∧ (forLoopM n (fun i (_ : Unit) => body i) () = Except.ok ()
        ∨ forLoopM n (fun i (_ : Unit) => body i) () = Except.error false) := by
  unfold forLoopM
  rcases foldlM_check body hb (List.finRange n) with ⟨h₁, h₂⟩ | ⟨h₁, k, _, hk⟩
  · exact ⟨⟨fun _ i => h₂ i (List.mem_finRange i), fun _ => h₁⟩, Or.inl h₁⟩
  · refine ⟨⟨fun h => ?_, fun h => ?_⟩, Or.inr h₁⟩
    · rw [h₁] at h; cases h
    · rw [h k] at hk; cases hk

namespace Matrix

variable {R C : Nat}

theorem operator_eq_iff (a b : Matrix R C) :
    operator_eq a b = true ↔ ∀ i j, a.data_ i j = b.data_ i j := by
  have hcell : ∀ (i : Fin R) (j : Fin C),
      (if a.data_ i j ≠ b.data_ i j then (Except.error false : Except Bool Unit)
        else Except.ok ()) = Except.ok ()
      ∨ (if a.data_ i j ≠ b.data_ i j then (Except.error false : Except Bool Unit)
        else Except.ok ()) = Except.error false := by
    intro i j
    by_cases h : a.data_ i j = b.data_ i j
    · left; simp [h]
    · right; simp [h]
  have hrow := fun i => forLoopM_check_ok_iff _ (hcell i)
  have hall := forLoopM_check_ok_iff _ (fun i => (hrow i).2)
  unfold operator_eq
  rcases hall.2 with h | h
  · rw [h]
    simp only [true_iff]
    intro i j
    have := ((hrow i).1.mp (hall.1.mp h i)) j
    by_contra hne
    simp [hne] at this
  · rw [h]
    simp only [Bool.false_eq_true, false_iff]
    intro hcells
    have hok : forLoopM R (fun i (_ : Unit) => forLoopM C (fun j (_ : Unit) =>
        if a.data_ i j ≠ b.data_ i j then (Except.error false : Except Bool Unit)
        else Except.ok ()) ()) () = Except.ok () :=
      hall.1.mpr (fun i => (hrow i).1.mpr (fun j => by simp [hcells i j]))
    rw [hok] at h
    cases h

theorem operator_eq_iff_eq (a b : Matrix R C) : operator_eq a b = true ↔ a = b := by
  rw [operator_eq_iff]
  constructor
  · intro h
    cases a; cases b
    simp only [mk.injEq]
    funext i j
    exact h i j
  · rintro rfl i j
    rfl

end Matrix

/-- C9: `A == B` returns true exactly when every pair of corresponding
elements is equal, and `A != B` returns the negation of `A == B`. -/
theorem C9_operator_eq_elementwise (R C : Nat) (a b : Matrix R C) :
    (Matrix.operator_eq a b = true ↔ ∀ (i : Fin R) (j : Fin C), a.data_ i j = b.data_ i j)
    ∧ Matrix.operator_ne a b = !(Matrix.operator_eq a b)
    ∧ (Matrix.operator_ne a b = true ↔ ∃ (i : Fin R) (j : Fin C), a.data_ i j ≠ b.data_ i j) := by
  refine ⟨Matrix.operator_eq_iff a b, rfl, ?_⟩
  unfold Matrix.operator_ne
  rw [Bool.not_eq_true', ← Bool.not_eq_true, Matrix.operator_eq_iff]
  simp only [not_forall]

/-- C10: `operator==` on matrices of one shape is reflexive, symmetric and
transitive. -/
theorem C10_operator_eq_equivalence (R C : Nat) :
    (∀ a : Matrix R C, Matrix.operator_eq a a = true)
    ∧ (∀ a b : Matrix R C, Matrix.operator_eq a b = true → Matrix.operator_eq b a = true)
    ∧ (∀ a b c : Matrix R C, Matrix.operator_eq a b = true → Matrix.operator_eq b c = true →
        Matrix.operator_eq a c = true) := by
  refine ⟨fun a => (Matrix.operator_eq_iff_eq a a).mpr rfl, fun a b h => ?_,
    fun a b c h₁ h₂ => ?_⟩
  · exact (Matrix.operator_eq_iff_eq b a).mpr ((Matrix.operator_eq_iff_eq a b).mp h).symm
  · exact (Matrix.operator_eq_iff_eq a c).mpr
      (((Matrix.operator_eq_iff_eq a b).mp h₁).trans ((Matrix.operator_eq_iff_eq b c).mp h₂))

/-- Witness for C10: `mat6`, the matrix built from its array by the array
constructor, and its copy compare equal in the orders that symmetry and
transitivity give. -/
theorem C10_operator_eq_equivalence_witness :
    Matrix.operator_eq mat6 (Matrix.array_ctor mat6.data_) = true
    ∧ Matrix.operator_eq (Matrix.array_ctor mat6.data_) (Matrix.copy_ctor mat6) = true
    ∧ Matrix.operator_eq (Matrix.array_ctor mat6.data_) mat6 = true
    ∧ Matrix.operator_eq mat6 (Matrix.copy_ctor mat6) = true :=
  ⟨by decide, by decide,
    (C10_operator_eq_equivalence 2 3).2.1 mat6 (Matrix.array_ctor mat6.data_) (by decide),
    (C10_operator_eq_equivalence 2 3).2.2 mat6 (Matrix.array_ctor mat6.data_)
      (Matrix.copy_ctor mat6) (by decide) (by decide)⟩

/-- C2: matrix multiplication is associative under `operator*` and
`operator==`. -/
theorem C2_operator_mul_assoc (M N P Q : Nat) (a : Matrix M N) (b : Matrix N P)
    (c : Matrix P Q) :
    Matrix.operator_eq (operator_mul (operator_mul a b) c) (operator_mul a (operator_mul b c))
      = true := by
  rw [Matrix.operator_eq_iff]
  intro i j
  simp only [operator_mul_apply, dotAscending_eq_sum]
  simp only [Finset.sum_mul, Finset.mul_sum]
  rw [Finset.sum_comm]
  refine Finset.sum_congr rfl (fun k _ => Finset.sum_congr rfl (fun l _ => ?_))
  exact mul_assoc _ _ _

/-! ## Construction from a nested list -/

/-- A loop whose body throws on a guard and otherwise updates the state stops
at the first index that meets the guard. -/
theorem foldlM_guard {ι ε σ : Type} (bad : ι → Bool) (e : ι → ε) (step : ι → σ → σ)
    (l : List ι) (d : σ) :
    l.foldlM (fun d i => if bad i then (Except.error (e i) : Except ε σ)
        else Except.ok (step i d)) d
      = match l.find? bad with
        | some i => Except.error (e i)
        | none => Except.ok (l.foldl (fun d i => step i d) d) := by
  induction l generalizing d with
  | nil => rfl
  | cons x xs ih =>
    rw [List.foldlM_cons, List.find?_cons]
    cases hx : bad x
    · simp only [Bool.false_eq_true, if_false]
      exact ih (step x d)
    · simp only [if_true]
      rfl

namespace Matrix

variable {R C : Nat}

/-- The nested-list constructor in closed form: the row count is checked
first, then the first row of wrong length decides, and otherwise the values
are copied by position. -/
theorem init_list_ctor_eq (list : List (List CInt)) :
    (init_list_ctor list : Except Exception (Matrix R C))
      = if list.length ≠ R then
          Except.error (Exception.invalid_argument (rowsMessage R list.length))
        else
          match (List.finRange R).find? (fun i => decide ((list.getD i.val []).length ≠ C)) with
          | some i => Except.error
              (Exception.invalid_argument (colsMessage C (list.getD i.val []).length i.val))
          | none => Except.ok ⟨fun i j => (list.getD i.val []).getD j.val 0⟩ := by
  unfold init_list_ctor
  by_cases hrows : list.length ≠ R
  · rw [dif_pos hrows, if_pos hrows]; rfl
  · rw [dif_neg hrows, if_neg hrows]
    have hlen : list.length = R := not_not.mp hrows
    have hbody : (fun (i : Fin R) (d : Data R C) =>
        let row := list.get ⟨i.val, by have := i.isLt; omega⟩
        if hcols : row.length ≠ C then
          (Utils.throw_invalid_argument_error
            "Expected %zu columns in initializer list, got %zu on row %zu"
            [C, row.length, i.val] : Except Exception (Data R C))
        else
          Except.ok (forLoop C (fun j d =>
            setCell d i j (row.get ⟨j.val, by have := j.isLt; omega⟩)) d))
        = fun i d =>
          if (fun i : Fin R => decide ((list.getD i.val []).length ≠ C)) i then
            Except.error ((fun i : Fin R => Exception.invalid_argument
              (colsMessage C (list.getD i.val []).length i.val)) i)
          else
            Except.ok ((fun (i : Fin R) (d : Data R C) => forLoop C (fun j d =>
              setCell d i j ((fun (i : Fin R) (j : Fin C) (_ : CInt) =>
                (list.getD i.val []).getD j.val 0) i j (d i j))) d) i d) := by
      funext i d
      have hi : i.val < list.length := by have := i.isLt; omega
      simp only [List.getD_eq_getElem _ _ hi, List.get_eq_getElem]
      by_cases hcols : list[i.val].length ≠ C
      · rw [dif_pos hcols, if_pos (decide_eq_true hcols)]
        rfl
      · rw [dif_neg hcols, if_neg (by simpa using hcols)]
        congr 2
        funext j d
        have hj : j.val < list[i.val].length := by
          have := j.isLt; have := not_not.mp hcols; omega
        rw [List.getD_eq_getElem _ _ hj]
    unfold forLoopM
    rw [hbody, foldlM_guard]
    cases List.find? (fun i : Fin R => decide ((list.getD i.val []).length ≠ C))
      (List.finRange R) with
    | some i => rfl
    | none =>
      show Except.ok (Matrix.mk _) = Except.ok (Matrix.mk _)
      congr 2
      funext a b
      exact forLoop_setCell_apply
        (fun (i : Fin R) (j : Fin C) (_ : CInt) => (list.getD i.val []).getD j.val 0) _ a b

end Matrix

namespace Matrix

variable {R C : Nat}

theorem find_wrong_row_eq_none_iff (list : List (List CInt)) (hrows : list.length = R) :
    (List.finRange R).find? (fun i => decide ((list.getD i.val []).length ≠ C)) = none
      ↔ ∀ row ∈ list, row.length = C := by
  rw [List.find?_eq_none]
  constructor
  · intro h row hrow
    obtain ⟨n, hn, rfl⟩ := List.getElem_of_mem hrow
    have := h ⟨n, hrows ▸ hn⟩ (List.mem_finRange _)
    rw [List.getD_eq_getElem _ _ hn] at this
    simpa using this
  · intro h i _
    have hi : i.val < list.length := by have := i.isLt; omega
    rw [List.getD_eq_getElem _ _ hi]
    simpa using h _ (List.getElem_mem hi)

end Matrix

/-- C3: construction from a nested list throws `std::invalid_argument` exactly
when the outer length differs from `R` or some row's length differs from `C`,
and succeeds for every list of exactly `R` rows of exactly `C` values. -/
theorem C3_init_list_ctor_shape (R C : Nat) (list : List (List CInt)) :
    ((∃ what, (Matrix.init_list_ctor list : Except Exception (Matrix R C))
          = Except.error (Exception.invalid_argument what))
      ↔ (list.length ≠ R ∨ ∃ row ∈ list, row.length ≠ C))
    ∧ ((list.length = R ∧ ∀ row ∈ list, row.length = C) →
        ∃ m : Matrix R C, Matrix.init_list_ctor list = Except.ok m) := by
  rw [Matrix.init_list_ctor_eq]
  by_cases hrows : list.length ≠ R
  · rw [if_pos hrows]
    exact ⟨⟨fun _ => Or.inl hrows, fun _ => ⟨_, rfl⟩⟩, fun h => absurd h.1 hrows⟩
  · rw [if_neg hrows]
    have hlen : list.length = R := not_not.mp hrows
    have hnone := Matrix.find_wrong_row_eq_none_iff (C := C) list hlen
    cases hfind : List.find? (fun i : Fin R => decide ((list.getD i.val []).length ≠ C))
      (List.finRange R) with
    | some i =>
      have hsome : ¬ ∀ row ∈ list, row.length = C := by
        intro h; rw [hnone.mpr h] at hfind; cases hfind
      refine ⟨⟨fun _ => Or.inr ?_, fun _ => ⟨_, rfl⟩⟩, fun h => absurd h.2 hsome⟩
      by_contra hno
      exact hsome (fun row hrow => by_contra (fun hne => hno ⟨row, hrow, hne⟩))
    | none =>
      have hall := hnone.mp hfind
      refine ⟨⟨fun h => ?_, fun h => ?_⟩, fun _ => ⟨_, rfl⟩⟩
      · obtain ⟨_, h⟩ := h
        cases h
      · rcases h with h | ⟨row, hrow, hne⟩
        · exact absurd h hrows
        · exact absurd (hall row hrow) hne

/-- C4: for a nested list of exactly `R` rows of exactly `C` values each, the
constructed matrix holds at every `(i, j)` the `j`-th value of the `i`-th row
of the list; `{{1,2},{3,4}}` gives `m[0][0] = 1`, `m[0][1] = 2`, `m[1][0] = 3`,
`m[1][1] = 4`. -/
theorem C4_init_list_ctor_values :
    (∀ (R C : Nat) (list : List (List CInt)), list.length = R →
      (∀ row ∈ list, row.length = C) →
      ∃ m : Matrix R C, Matrix.init_list_ctor list = Except.ok m
        ∧ ∀ (i : Fin R) (j : Fin C),
            (list[i.val]?).bind (fun row => row[j.val]?) = some (m.data_ i j))
    ∧ ((Matrix.init_list_ctor [[1, 2], [3, 4]] : Except Exception (Matrix 2 2)).bind
          (fun m => (m.operator_index_const 0).map (fun row => row 0)) = Except.ok 1
      ∧ (Matrix.init_list_ctor [[1, 2], [3, 4]] : Except Exception (Matrix 2 2)).bind
          (fun m => (m.operator_index_const 0).map (fun row => row 1)) = Except.ok 2
      ∧ (Matrix.init_list_ctor [[1, 2], [3, 4]] : Except Exception (Matrix 2 2)).bind
          (fun m => (m.operator_index_const 1).map (fun row => row 0)) = Except.ok 3
      ∧ (Matrix.init_list_ctor [[1, 2], [3, 4]] : Except Exception (Matrix 2 2)).bind
          (fun m => (m.operator_index_const 1).map (fun row => row 1)) = Except.ok 4) := by
  refine ⟨fun R C list hrows hcols => ?_, by decide⟩
  refine ⟨⟨fun i j => (list.getD i.val []).getD j.val 0⟩, ?_, fun i j => ?_⟩
  · rw [Matrix.init_list_ctor_eq, if_neg (not_not.mpr hrows),
      (Matrix.find_wrong_row_eq_none_iff list hrows).mpr hcols]
  · have hi : i.val < list.length := by have := i.isLt; omega
    have hj : j.val < (list[i.val]).length := by
      have := j.isLt; have := hcols _ (List.getElem_mem hi); omega
    simp only [List.getD_eq_getElem _ _ hi, List.getD_eq_getElem _ _ hj,
      List.getElem?_eq_getElem hi, Option.some_bind, List.getElem?_eq_getElem hj]

/-- Witness for C4 at the list `{{1,2},{3,4}}` of the tests. -/
theorem C4_init_list_ctor_values_witness :
    ([[1, 2], [3, 4]] : List (List CInt)).length = 2
    ∧ (∀ row ∈ ([[1, 2], [3, 4]] : List (List CInt)), row.length = 2)
    ∧ ∃ m : Matrix 2 2, Matrix.init_list_ctor [[1, 2], [3, 4]] = Except.ok m
        ∧ ∀ (i : Fin 2) (j : Fin 2),
            (([[1, 2], [3, 4]] : List (List CInt))[i.val]?).bind (fun row => row[j.val]?)
              = some (m.data_ i j) :=
  ⟨by decide, by decide, C4_init_list_ctor_values.1 2 2 [[1, 2], [3, 4]] (by decide) (by decide)⟩

/-- Witness for C3 at a well-shaped `2 × 2` list. -/
theorem C3_init_list_ctor_shape_witness :
    (([[1, 2], [3, 4]] : List (List CInt)).length = 2
      ∧ ∀ row ∈ ([[1, 2], [3, 4]] : List (List CInt)), row.length = 2)
    ∧ ∃ m : Matrix 2 2, Matrix.init_list_ctor [[1, 2], [3, 4]] = Except.ok m :=
  ⟨by decide, (C3_init_list_ctor_shape 2 2 [[1, 2], [3, 4]]).2 (by decide)⟩

/-! ## Element and row access -/

/-- Two-index access throws `std::out_of_range` exactly on an index out of
bounds and otherwise yields the element at that position. -/
theorem operator_call_spec (R C : Nat) (m : Matrix R C) (row col : Nat) :
    ((∃ what, m.operator_call_const row col = Except.error (Exception.out_of_range what))
      ↔ (row ≥ R ∨ col ≥ C))
    ∧ ((∃ what, m.operator_call row col = Except.error (Exception.out_of_range what))
      ↔ (row ≥ R ∨ col ≥ C))
    ∧ ∀ (hr : row < R) (hc : col < C),
        m.operator_call_const row col = Except.ok (m.data_ ⟨row, hr⟩ ⟨col, hc⟩)
        ∧ m.operator_call row col = Except.ok (⟨row, hr⟩, ⟨col, hc⟩) := by
  unfold Matrix.operator_call_const Matrix.operator_call
  by_cases h₁ : row ≥ R
  · have h₁' : row < 0 ∨ row ≥ R := Or.inr h₁
    rw [dif_pos h₁', dif_pos h₁]
    exact ⟨⟨fun _ => Or.inl h₁, fun _ => ⟨_, rfl⟩⟩, ⟨fun _ => Or.inl h₁, fun _ => ⟨_, rfl⟩⟩,
      fun hr => absurd h₁ (by omega)⟩
  · have h₁' : ¬ (row < 0 ∨ row ≥ R) := by omega
    rw [dif_neg h₁', dif_neg h₁]
    by_cases h₂ : col ≥ C
    · have h₂' : col < 0 ∨ col ≥ C := Or.inr h₂
      rw [dif_pos h₂', dif_pos h₂]
      exact ⟨⟨fun _ => Or.inr h₂, fun _ => ⟨_, rfl⟩⟩, ⟨fun _ => Or.inr h₂, fun _ => ⟨_, rfl⟩⟩,
        fun _ hc => absurd h₂ (by omega)⟩
    · have h₂' : ¬ (col < 0 ∨ col ≥ C) := by omega
      rw [dif_neg h₂', dif_neg h₂]
      refine ⟨⟨fun h => ?_, fun h => ?_⟩, ⟨fun h => ?_, fun h => ?_⟩, fun _ _ => ⟨rfl, rfl⟩⟩
      · obtain ⟨_, h⟩ := h; cases h
      · omega
      · obtain ⟨_, h⟩ := h; cases h
      · omega

theorem operator_call_const_ok {R C : Nat} (m : Matrix R C) (i : Fin R) (j : Fin C) :
    m.operator_call_const i.val j.val = Except.ok (m.data_ i j) :=
  ((operator_call_spec R C m i.val j.val).2.2 i.isLt j.isLt).1

/-- C5: two-index access `m(row, col)`, in its `const` and its mutable form,
throws `std::out_of_range` exactly when `row >= R` or `col >= C`; otherwise the
`const` form returns the element stored at `(row, col)` and the mutable form a
reference to that element; for a `2 × 2` matrix row index `2` and column index
`2` throw. -/
theorem C5_operator_call_bounds :
    (∀ (R C : Nat) (m : Matrix R C) (row col : Nat),
      ((∃ what, m.operator_call_const row col = Except.error (Exception.out_of_range what))
        ↔ (row ≥ R ∨ col ≥ C))
      ∧ ((∃ what, m.operator_call row col = Except.error (Exception.out_of_range what))
        ↔ (row ≥ R ∨ col ≥ C))
      ∧ ∀ (hr : row < R) (hc : col < C),
          m.operator_call_const row col = Except.ok (m.data_ ⟨row, hr⟩ ⟨col, hc⟩)
          ∧ m.operator_call row col = Except.ok (⟨row, hr⟩, ⟨col, hc⟩))
    ∧ (∀ (m : Matrix 2 2) (k : Nat),
        (∃ what, m.operator_call_const 2 k = Except.error (Exception.out_of_range what))
        ∧ (∃ what, m.operator_call_const k 2 = Except.error (Exception.out_of_range what))
        ∧ (∃ what, m.operator_call 2 k = Except.error (Exception.out_of_range what))
        ∧ (∃ what, m.operator_call k 2 = Except.error (Exception.out_of_range what))) := by
  refine ⟨operator_call_spec, fun m k => ⟨?_, ?_, ?_, ?_⟩⟩
  · exact (operator_call_spec 2 2 m 2 k).1.mpr (Or.inl (Nat.le_refl 2))
  · exact (operator_call_spec 2 2 m k 2).1.mpr (Or.inr (Nat.le_refl 2))
  · exact (operator_call_spec 2 2 m 2 k).2.1.mpr (Or.inl (Nat.le_refl 2))
  · exact (operator_call_spec 2 2 m k 2).2.1.mpr (Or.inr (Nat.le_refl 2))

/-- Witness for C5 on the `3 × 3` matrix of `test_accessors` at position `(1, 1)`. -/
theorem C5_operator_call_bounds_witness :
    (1 < 3) ∧ (1 < 3)
    ∧ accessorsMat.operator_call_const 1 1
        = Except.ok (accessorsMat.data_ ⟨1, by decide⟩ ⟨1, by decide⟩)
    ∧ accessorsMat.operator_call 1 1 = Except.ok (⟨1, by decide⟩, ⟨1, by decide⟩) :=
  ⟨by decide, by decide,
    ((C5_operator_call_bounds.1 3 3 accessorsMat 1 1).2.2 (by decide) (by decide))⟩

/-- C6: row access `m[i]`, in its `const` and its mutable form, throws
`std::out_of_range` exactly when `i >= R`; otherwise the `const` form returns
the `i`-th row, a sequence of `C` scalars whose `j`-th entry is what the
two-index access `m(i, j)` returns, and the mutable form returns a reference to
that row. -/
theorem C6_operator_index_bounds (R C : Nat) (m : Matrix R C) (i : Nat) :
    ((∃ what, m.operator_index_const i = Except.error (Exception.out_of_range what)) ↔ i ≥ R)
    ∧ ((∃ what, m.operator_index i = Except.error (Exception.out_of_range what)) ↔ i ≥ R)
    ∧ ∀ (hi : i < R),
        (∃ row : Fin C → CInt, m.operator_index_const i = Except.ok row
          ∧ row = m.data_ ⟨i, hi⟩
          ∧ ∀ j : Fin C, m.operator_call_const i j.val = Except.ok (row j))
        ∧ m.operator_index i = Except.ok ⟨i, hi⟩ := by
  unfold Matrix.operator_index_const Matrix.operator_index
  by_cases h : i ≥ R
  · rw [dif_pos h, dif_pos h]
    exact ⟨⟨fun _ => h, fun _ => ⟨_, rfl⟩⟩, ⟨fun _ => h, fun _ => ⟨_, rfl⟩⟩,
      fun hi => absurd h (by omega)⟩
  · rw [dif_neg h, dif_neg h]
    refine ⟨⟨fun h' => ?_, fun h' => absurd h' h⟩, ⟨fun h' => ?_, fun h' => absurd h' h⟩,
      fun hi => ⟨⟨_, rfl, rfl, fun j => ?_⟩, rfl⟩⟩
    · obtain ⟨_, h'⟩ := h'; cases h'
    · obtain ⟨_, h'⟩ := h'; cases h'
    · exact operator_call_const_ok m ⟨i, hi⟩ j

/-- Witness for C6 on the `3 × 3` matrix of `test_accessors` at row `1`. -/
theorem C6_operator_index_bounds_witness :
    (1 < 3)
    ∧ (∃ row : Fin 3 → CInt, accessorsMat.operator_index_const 1 = Except.ok row
        ∧ row = accessorsMat.data_ ⟨1, by decide⟩
        ∧ ∀ j : Fin 3, accessorsMat.operator_call_const 1 j.val = Except.ok (row j)) :=
  ⟨by decide, ((C6_operator_index_bounds 3 3 accessorsMat 1).2.2 (by decide)).1⟩

/-! ## Elementwise arithmetic on the store -/

section StoreLoops

variable {R C : Nat}

theorem Store.withData_self (σ : Store R C) (this : Ref) :
    σ.withData this (σ.obj this).data_ = σ := by
  cases σ
  simp [Store.withData]

/-- The loops of a compound assignment `this[i][j] = F(this[i][j], other[i][j])`
give every element of the receiver the value `F` of its old value and the old
value of the argument's element, also when the argument is the receiver, and
leave every other object as it was. -/
theorem compound_loop (F : CInt → CInt → CInt) (this other : Ref) (σ : Store R C) :
    forLoop R (fun i σ =>
        forLoop C (fun j σ =>
          σ.write this i j (F (σ.read this i j) (σ.read other i j))) σ) σ
      = σ.withData this (fun i j => F (σ.read this i j) (σ.read other i j)) := by
  let G : Fin R → Fin C → CInt → CInt :=
    fun i j v => F v (if other = this then v else σ.read other i j)
  have hstep : ∀ (i : Fin R) (j : Fin C) (d : Data R C),
      (σ.withData this d).write this i j
          (F ((σ.withData this d).read this i j) ((σ.withData this d).read other i j))
        = σ.withData this (setCell d i j (G i j (d i j))) := by
    intro i j d
    by_cases h : other = this
    · subst h
      simp [Store.withData, Store.write, Store.read, G]
    · simp [Store.withData, Store.write, Store.read, G, h, Function.update_noteq h]
  have hinner : ∀ (i : Fin R) (d : Data R C),
      forLoop C (fun j σ' =>
          σ'.write this i j (F (σ'.read this i j) (σ'.read other i j))) (σ.withData this d)
        = σ.withData this (forLoop C (fun j d => setCell d i j (G i j (d i j))) d) := by
    intro i d
    unfold forLoop
    exact List.foldl_hom (σ.withData this) (fun d j => setCell d i j (G i j (d i j)))
      (fun σ' j => σ'.write this i j (F (σ'.read this i j) (σ'.read other i j))) _ d
      (fun d j => hstep i j d)
  have houter : ∀ d : Data R C,
      forLoop R (fun i σ' =>
          forLoop C (fun j σ' =>
            σ'.write this i j (F (σ'.read this i j) (σ'.read other i j))) σ')
          (σ.withData this d)
        = σ.withData this
            (forLoop R (fun i d => forLoop C (fun j d => setCell d i j (G i j (d i j))) d) d) := by
    intro d
    unfold forLoop
    exact List.foldl_hom (σ.withData this)
      (fun d i => (List.finRange C).foldl (fun d j => setCell d i j (G i j (d i j))) d)
      (fun σ' i => (List.finRange C).foldl (fun σ' j =>
        σ'.write this i j (F (σ'.read this i j) (σ'.read other i j))) σ') _ d
      (fun d i => hinner i d)
  have h := houter (σ.obj this).data_
  rw [Store.withData_self] at h
  rw [h]
  congr 1
  funext a b
  rw [forLoop_setCell_apply G]
  by_cases hob : other = this
  · simp [G, hob, Store.read]
  · simp [G, hob, Store.read]

theorem operator_plus_eq_result (this other : Ref) (σ : Store R C) :
    Matrix.operator_plus_eq this other σ
      = (σ.withData this (fun i j => CInt.add (σ.read this i j) (σ.read other i j)), this) := by
  unfold Matrix.operator_plus_eq
  rw [compound_loop CInt.add]

theorem operator_minus_eq_result (this other : Ref) (σ : Store R C) :
    Matrix.operator_minus_eq this other σ
      = (σ.withData this (fun i j => CInt.sub (σ.read this i j) (σ.read other i j)), this) := by
  unfold Matrix.operator_minus_eq
  rw [compound_loop CInt.sub]

/-- The effect of `return Matrix{lhs} op= rhs;` on a store in which `lhs` and
`rhs` are existing objects: two objects are created, the second is the returned
one and holds `F` of the operands' elements, and no existing object changes. -/
theorem binary_operator_result (F : CInt → CInt → CInt) (lhs rhs : Ref) (σ : Store R C)
    (hr : rhs < σ.next) :
    let σ₁ := (σ.alloc (Matrix.copy_ctor (σ.obj lhs))).1
    let σ₂ := σ₁.withData σ.next (fun i j => F (σ₁.read σ.next i j) (σ₁.read rhs i j))
    let r := σ₂.alloc (Matrix.copy_ctor (σ₂.obj σ.next))
    r.2 = σ.next + 1 ∧ r.1.next = σ.next + 2
      ∧ (∀ p, p < σ.next → r.1.obj p = σ.obj p)
      ∧ r.1.obj r.2 = ⟨fun i j => F (σ.read lhs i j) (σ.read rhs i j)⟩ := by
  have hr' : rhs ≠ σ.next := Nat.ne_of_lt hr
  refine ⟨rfl, rfl, fun p hp => ?_, ?_⟩
  · have h₁ : p ≠ σ.next + 1 := Nat.ne_of_lt (Nat.lt_succ_of_lt hp)
    have h₂ : p ≠ σ.next := Nat.ne_of_lt hp
    simp [Store.alloc, Store.withData, h₁, h₂]
  · simp [Store.alloc, Store.withData, Store.read, Matrix.copy_ctor, Matrix.array_ctor, hr']

theorem operator_plus_result (lhs rhs : Ref) (σ : Store R C) (hr : rhs < σ.next) :
    (operator_plus lhs rhs σ).2 = σ.next + 1 ∧ (operator_plus lhs rhs σ).1.next = σ.next + 2
      ∧ (∀ p, p < σ.next → (operator_plus lhs rhs σ).1.obj p = σ.obj p)
      ∧ (operator_plus lhs rhs σ).1.obj (operator_plus lhs rhs σ).2
          = ⟨fun i j => CInt.add (σ.read lhs i j) (σ.read rhs i j)⟩ := by
  have h := binary_operator_result CInt.add lhs rhs σ hr
  unfold operator_plus
  simp only [operator_plus_eq_result]
  exact h

theorem operator_minus_result (lhs rhs : Ref) (σ : Store R C) (hr : rhs < σ.next) :
    (operator_minus lhs rhs σ).2 = σ.next + 1 ∧ (operator_minus lhs rhs σ).1.next = σ.next + 2
      ∧ (∀ p, p < σ.next → (operator_minus lhs rhs σ).1.obj p = σ.obj p)
      ∧ (operator_minus lhs rhs σ).1.obj (operator_minus lhs rhs σ).2
          = ⟨fun i j => CInt.sub (σ.read lhs i j) (σ.read rhs i j)⟩ := by
  have h := binary_operator_result CInt.sub lhs rhs σ hr
  unfold operator_minus
  simp only [operator_minus_eq_result]
  exact h

end StoreLoops

/-- C7: for objects `lhs` and `rhs` of one shape, `lhs + rhs` and `lhs - rhs`
are new objects whose element at every `(i, j)` is `lhs(i,j) + rhs(i,j)` and
`lhs(i,j) - rhs(i,j)` in `int`, which is the integer sum or difference whenever
that is in the range of `int`, and the operands hold after the call what they
held before; `[[1,2],[3,4]]` and `[[5,6],[7,8]]` give `[[6,8],[10,12]]` and
`[[-4,-4],[-4,-4]]`. -/
theorem C7_operator_plus_minus :
    (∀ (R C : Nat) (σ : Store R C) (lhs rhs : Ref), lhs < σ.next → rhs < σ.next →
      ((∀ i j, (operator_plus lhs rhs σ).1.read (operator_plus lhs rhs σ).2 i j
              = CInt.add (σ.read lhs i j) (σ.read rhs i j)
            ∧ (INT_MIN ≤ (σ.read lhs i j).val + (σ.read rhs i j).val →
                (σ.read lhs i j).val + (σ.read rhs i j).val ≤ INT_MAX →
                ((operator_plus lhs rhs σ).1.read (operator_plus lhs rhs σ).2 i j).val
                  = (σ.read lhs i j).val + (σ.read rhs i j).val))
        ∧ σ.next ≤ (operator_plus lhs rhs σ).2
        ∧ (operator_plus lhs rhs σ).1.obj lhs = σ.obj lhs
        ∧ (operator_plus lhs rhs σ).1.obj rhs = σ.obj rhs)
      ∧ ((∀ i j, (operator_minus lhs rhs σ).1.read (operator_minus lhs rhs σ).2 i j
              = CInt.sub (σ.read lhs i j) (σ.read rhs i j)
            ∧ (INT_MIN ≤ (σ.read lhs i j).val - (σ.read rhs i j).val →
                (σ.read lhs i j).val - (σ.read rhs i j).val ≤ INT_MAX →
                ((operator_minus lhs rhs σ).1.read (operator_minus lhs rhs σ).2 i j).val
                  = (σ.read lhs i j).val - (σ.read rhs i j).val))
        ∧ σ.next ≤ (operator_minus lhs rhs σ).2
        ∧ (operator_minus lhs rhs σ).1.obj lhs = σ.obj lhs
        ∧ (operator_minus lhs rhs σ).1.obj rhs = σ.obj rhs))
    ∧ (operator_plus 0 1 arithmeticStore).1.obj (operator_plus 0 1 arithmeticStore).2
        = lit ![![6, 8], ![10, 12]]
    ∧ (operator_minus 0 1 arithmeticStore).1.obj (operator_minus 0 1 arithmeticStore).2
        = lit ![![-4, -4], ![-4, -4]] := by
  refine ⟨fun R C σ lhs rhs hl hr => ⟨?_, ?_⟩, by decide, by decide⟩
  · obtain ⟨h₁, _, h₃, h₄⟩ := operator_plus_result lhs rhs σ hr
    have hcell : ∀ i j, (operator_plus lhs rhs σ).1.read (operator_plus lhs rhs σ).2 i j
        = CInt.add (σ.read lhs i j) (σ.read rhs i j) := by
      intro i j; unfold Store.read; rw [h₄]; rfl
    refine ⟨fun i j => ⟨hcell i j, fun lo hi => ?_⟩, ?_, h₃ lhs hl, h₃ rhs hr⟩
    · rw [hcell]; exact wrap_of_range lo hi
    · rw [h₁]; exact Nat.le_succ _
  · obtain ⟨h₁, _, h₃, h₄⟩ := operator_minus_result lhs rhs σ hr
    have hcell : ∀ i j, (operator_minus lhs rhs σ).1.read (operator_minus lhs rhs σ).2 i j
        = CInt.sub (σ.read lhs i j) (σ.read rhs i j) := by
      intro i j; unfold Store.read; rw [h₄]; rfl
    refine ⟨fun i j => ⟨hcell i j, fun lo hi => ?_⟩, ?_, h₃ lhs hl, h₃ rhs hr⟩
    · rw [hcell]; exact wrap_of_range lo hi
    · rw [h₁]; exact Nat.le_succ _

/-- Witness for C7 on the store holding `mat1` at address `0` and `mat2` at
address `1`: after `mat1 + mat2` both operands are as before. -/
theorem C7_operator_plus_minus_witness :
    (0 : Ref) < arithmeticStore.next ∧ (1 : Ref) < arithmeticStore.next
    ∧ (operator_plus 0 1 arithmeticStore).1.obj 0 = arithmeticStore.obj 0
    ∧ (operator_plus 0 1 arithmeticStore).1.obj 1 = arithmeticStore.obj 1 :=
  ⟨by decide, by decide,
    (C7_operator_plus_minus.1 2 2 arithmeticStore 0 1 (by decide) (by decide)).1.2.2⟩

/-- C8: with the wrapping arithmetic of `int`, `(A + B) - B == A` for all
objects `A` and `B` of one shape. -/
theorem C8_plus_minus_roundtrip (R C : Nat) (σ : Store R C) (a b : Ref)
    (ha : a < σ.next) (hb : b < σ.next) :
    Matrix.operator_eq
      ((operator_minus (operator_plus a b σ).2 b (operator_plus a b σ).1).1.obj
        (operator_minus (operator_plus a b σ).2 b (operator_plus a b σ).1).2)
      ((operator_minus (operator_plus a b σ).2 b (operator_plus a b σ).1).1.obj a) = true := by
  obtain ⟨h₁, h₂, h₃, h₄⟩ := operator_plus_result a b σ hb
  have hb' : b < (operator_plus a b σ).1.next := by
    rw [h₂]; exact Nat.lt_add_right 2 hb
  have ha' : a < (operator_plus a b σ).1.next := by
    rw [h₂]; exact Nat.lt_add_right 2 ha
  obtain ⟨_, _, k₃, k₄⟩ :=
    operator_minus_result (operator_plus a b σ).2 b (operator_plus a b σ).1 hb'
  rw [Matrix.operator_eq_iff]
  intro i j
  rw [k₄, k₃ a ha', h₃ a ha]
  show CInt.sub ((operator_plus a b σ).1.read (operator_plus a b σ).2 i j)
    ((operator_plus a b σ).1.read b i j) = (σ.obj a).data_ i j
  unfold Store.read
  rw [h₄, h₃ b hb]
  show CInt.sub (CInt.add ((σ.obj a).data_ i j) ((σ.obj b).data_ i j)) ((σ.obj b).data_ i j)
    = (σ.obj a).data_ i j
  rw [CInt.add_eq, CInt.sub_eq, add_sub_cancel_right]

/-- Witness for C8 on the store holding `mat1` at address `0` and `mat2` at
address `1`. -/
theorem C8_plus_minus_roundtrip_witness :
    (0 : Ref) < arithmeticStore.next ∧ (1 : Ref) < arithmeticStore.next
    ∧ Matrix.operator_eq
      ((operator_minus (operator_plus 0 1 arithmeticStore).2 1
          (operator_plus 0 1 arithmeticStore).1).1.obj
        (operator_minus (operator_plus 0 1 arithmeticStore).2 1
          (operator_plus 0 1 arithmeticStore).1).2)
      ((operator_minus (operator_plus 0 1 arithmeticStore).2 1
          (operator_plus 0 1 arithmeticStore).1).1.obj 0) = true :=
  ⟨by decide, by decide, C8_plus_minus_roundtrip 2 2 arithmeticStore 0 1 (by decide) (by decide)⟩

/-! ## Textual rendering -/

theorem join_cons_eq (a : String) (l : List String) :
    String.join (a :: l) = a ++ String.join l := by
  apply String.ext
  simp [String.data_join]

/-- A loop that appends a text per index appends the texts in index order. -/
theorem foldl_append_join {ι : Type} (F : ι → String → String) (t : ι → String)
    (hF : ∀ x s, F x s = s ++ t x) (l : List ι) (s : String) :
    l.foldl (fun s x => F x s) s = s ++ String.join (l.map t) := by
  induction l generalizing s with
  | nil => simp [String.join]
  | cons x xs ih =>
    rw [List.foldl_cons, ih, hF, List.map_cons, join_cons_eq, String.append_assoc]

theorem intercalate_go_eq (sep : String) (l : List String) (acc : String) :
    String.intercalate.go acc sep l = acc ++ String.join (l.map (fun a => sep ++ a)) := by
  induction l generalizing acc with
  | nil => simp [String.intercalate.go, String.join]
  | cons x xs ih =>
    rw [String.intercalate.go, ih, List.map_cons, join_cons_eq]
    simp only [String.append_assoc]

theorem intercalate_cons_eq (sep a : String) (l : List String) :
    sep.intercalate (a :: l) = a ++ String.join (l.map (fun a => sep ++ a)) := by
  rw [String.intercalate, intercalate_go_eq]

/-- The loop `ss << a << sep` over the elements before the last, followed by
the last element, writes the elements separated by `sep`. -/
theorem foldl_sep_append_last (sep : String) (l : List String) (x s : String) :
    l.foldl (fun ss a => ss ++ a ++ sep) s ++ x = s ++ sep.intercalate (l ++ [x]) := by
  induction l generalizing s with
  | nil => simp [intercalate_cons_eq, String.join]
  | cons a l ih =>
    rw [List.foldl_cons, ih, List.cons_append, intercalate_cons_eq]
    cases l with
    | nil =>
      simp only [List.nil_append, intercalate_cons_eq, List.map_nil, List.map_cons,
        join_cons_eq, String.join, List.foldl_nil, String.append_empty, String.append_assoc,
        List.foldl_cons, String.empty_append]
    | cons b l =>
      simp only [List.cons_append, intercalate_cons_eq, List.map_cons, join_cons_eq,
        String.append_assoc]

/-- The indices below `m` followed by `m` are the indices below `m + 1`. -/
theorem finRange_map_append_last {α : Type} {C : Nat} (m : Nat) (hm : m + 1 = C)
    (f : Fin C → α) :
    (List.finRange m).map (fun j => f ⟨j.val, by have := j.isLt; omega⟩) ++ [f ⟨m, by omega⟩]
      = (List.finRange C).map f := by
  subst hm
  rw [List.finRange_succ_last, List.map_append, List.map_map]
  rfl

/-- One pass of the row loop appends the rendering of the row. -/
theorem row_pass_eq {R C : Nat} (hC : 0 < C) (toPrint : Matrix R C) (i : Fin R) (ss : String) :
    forLoop (C - 1) (fun j ss =>
        ss ++ (toPrint.data_ i ⟨j.val, by have := j.isLt; omega⟩).decimal ++ ", ") (ss ++ "| ")
      ++ (toPrint.data_ i ⟨C - 1, by omega⟩).decimal ++ " |\n"
      = ss ++ renderRow (toPrint.data_ i) := by
  have hfold : forLoop (C - 1) (fun j ss =>
        ss ++ (toPrint.data_ i ⟨j.val, by have := j.isLt; omega⟩).decimal ++ ", ") (ss ++ "| ")
      = ((List.finRange (C - 1)).map (fun j : Fin (C - 1) =>
          (toPrint.data_ i ⟨j.val, by have := j.isLt; omega⟩).decimal)).foldl
          (fun ss a => ss ++ a ++ ", ") (ss ++ "| ") := by
    unfold forLoop
    rw [List.foldl_map]
  have hlist := finRange_map_append_last (C - 1) (by omega)
    (fun j : Fin C => (toPrint.data_ i j).decimal)
  rw [hfold, foldl_sep_append_last, hlist]
  unfold renderRow
  simp only [String.append_assoc]

theorem to_string_eq_render {R C : Nat} (hC : 0 < C) (toPrint : Matrix R C) :
    to_string hC toPrint = render toPrint := by
  have h := foldl_append_join
    (fun (i : Fin R) (ss : String) =>
      forLoop (C - 1) (fun j ss =>
          ss ++ (toPrint.data_ i ⟨j.val, by have := j.isLt; omega⟩).decimal ++ ", ") (ss ++ "| ")
        ++ (toPrint.data_ i ⟨C - 1, by omega⟩).decimal ++ " |\n")
    (fun i => renderRow (toPrint.data_ i))
    (fun i ss => row_pass_eq hC toPrint i ss) (List.finRange R) ""
  rw [String.empty_append] at h
  exact h

theorem operator_shl_eq_append {R C : Nat} (hC : 0 < C) (os : String) (toPrint : Matrix R C) :
    operator_shl textStream hC os toPrint = os ++ to_string hC toPrint := by
  rw [to_string_eq_render]
  exact foldl_append_join
    (fun (i : Fin R) (ss : String) =>
      forLoop (C - 1) (fun j ss =>
          ss ++ (toPrint.data_ i ⟨j.val, by have := j.isLt; omega⟩).decimal ++ ", ") (ss ++ "| ")
        ++ (toPrint.data_ i ⟨C - 1, by omega⟩).decimal ++ " |\n")
    (fun i => renderRow (toPrint.data_ i))
    (fun i ss => row_pass_eq hC toPrint i ss) (List.finRange R) os

/-- C12: for `C >= 1`, `to_string` returns the concatenation, over the rows in
order, of `| `, the row's elements in decimal separated by `, `, then ` |` and
a line break; the matrix `[[1,2],[3,4]]` renders as `| 1, 2 |\n| 3, 4 |\n`. -/
theorem C12_to_string_format :
    (∀ (R C : Nat) (hC : 0 < C) (m : Matrix R C),
      to_string hC m
        = String.join ((List.finRange R).map (fun i =>
            "| " ++ ", ".intercalate ((List.finRange C).map (fun j => (m.data_ i j).decimal))
              ++ " |\n")))
    ∧ to_string (by decide) mat1 = "| 1, 2 |\n| 3, 4 |\n" :=
  ⟨fun _ _ hC m => to_string_eq_render hC m, by decide⟩

/-- Witness for C12 on the `2 × 3` matrix `mat6`. -/
theorem C12_to_string_format_witness :
    to_string (by decide) mat6
      = String.join ((List.finRange 2).map (fun i =>
          "| " ++ ", ".intercalate ((List.finRange 3).map (fun j => (mat6.data_ i j).decimal))
            ++ " |\n")) :=
  C12_to_string_format.1 2 3 (by decide) mat6

/-- A loop on a stream whose every pass, from a state of `D`, stays in `D` and
writes what the pass `g` on the text alone writes, stays in `D` and writes
what the loop of `g` writes. -/
theorem foldl_text_sim {ι S : Type} (text : S → String) (D : S → Prop) (f : S → ι → S)
    (g : String → ι → String)
    (h : ∀ s x, D s → D (f s x) ∧ text (f s x) = g (text s) x) (l : List ι) (s : S)
    (hs : D s) :
    D (l.foldl f s) ∧ text (l.foldl f s) = l.foldl g (text s) := by
  induction l generalizing s with
  | nil => exact ⟨hs, rfl⟩
  | cons x xs ih =>
    obtain ⟨h₁, h₂⟩ := h s x hs
    rw [List.foldl_cons, List.foldl_cons, ← h₂]
    exact ih (f s x) h₁

/-- On a stream that, in the states of `D`, appends a string literal as it is
and an `int` as its decimal digits, and stays in `D`, `operator<<` writes what
it writes on the stream that is only its text. -/
theorem operator_shl_text_eq {S : Type} (k : OStream S) (D : S → Prop)
    (hstr : ∀ os s, D os → D (k.putStr os s) ∧ k.text (k.putStr os s) = k.text os ++ s)
    (hint : ∀ os x, D os → D (k.putInt os x) ∧ k.text (k.putInt os x) = k.text os ++ x.decimal)
    {R C : Nat} (hC : 0 < C) (os : S) (hos : D os) (m : Matrix R C) :
    D (operator_shl k hC os m)
      ∧ k.text (operator_shl k hC os m) = operator_shl textStream hC (k.text os) m := by
  have hpair : ∀ (s : S) (x : CInt) (t : String), D s →
      D (k.putStr (k.putInt s x) t)
        ∧ k.text (k.putStr (k.putInt s x) t) = k.text s ++ x.decimal ++ t := by
    intro s x t hs
    obtain ⟨h₁, h₂⟩ := hint s x hs
    obtain ⟨h₃, h₄⟩ := hstr (k.putInt s x) t h₁
    exact ⟨h₃, by rw [h₄, h₂]⟩
  unfold operator_shl forLoop
  refine foldl_text_sim k.text D _ _ (fun s i hs => ?_) (List.finRange R) os hos
  obtain ⟨h₁, h₂⟩ := hstr s "| " hs
  obtain ⟨h₃, h₄⟩ := foldl_text_sim k.text D
    (fun (os : S) (j : Fin (C - 1)) =>
      k.putStr (k.putInt os (m.data_ i ⟨j.val, by have := j.isLt; omega⟩)) ", ")
    (fun (ss : String) (j : Fin (C - 1)) =>
      ss ++ (m.data_ i ⟨j.val, by have := j.isLt; omega⟩).decimal ++ ", ")
    (fun s j hs => hpair s _ ", " hs) (List.finRange (C - 1)) (k.putStr s "| ") h₁
  obtain ⟨h₅, h₆⟩ := hpair _ (m.data_ i ⟨C - 1, by omega⟩) " |\n" h₃
  refine ⟨h₅, ?_⟩
  rw [h₆, h₄, h₂]
  rfl

/-- C14, as stated, fails: on a stream set to `std::hex` the text that
`operator<<` appends for `[[10, 255]]` is `| a, ff |` and a line break, and
`to_string` returns `| 10, 255 |` and a line break. -/
theorem C14_operator_shl_matches_to_string_counterexample :
    (operator_shl baseStream (by decide) (BaseStream.mk "" Basefield.hex)
        (lit ![![10, 255]] : Matrix 1 2)).text = "| a, ff |\n"
    ∧ to_string (by decide) (lit ![![10, 255]] : Matrix 1 2) = "| 10, 255 |\n"
    ∧ (operator_shl baseStream (by decide) (BaseStream.mk "" Basefield.hex)
        (lit ![![10, 255]] : Matrix 1 2)).text
      ≠ "" ++ to_string (by decide) (lit ![![10, 255]] : Matrix 1 2) := by
  decide

/-- C14, amended: on an output stream in the default formatting state, that
is, in states `D` in which the stream appends a string literal as it is and an
`int` as its decimal digits and which it does not leave, as the new
`std::stringstream` of `to_string` is, the text that `operator<<` appends is
the string that `to_string` returns, and the stream stays in such a state. -/
theorem C14_operator_shl_matches_to_string {S : Type} (k : OStream S) (D : S → Prop)
    (hstr : ∀ os s, D os → D (k.putStr os s) ∧ k.text (k.putStr os s) = k.text os ++ s)
    (hint : ∀ os x, D os → D (k.putInt os x) ∧ k.text (k.putInt os x) = k.text os ++ x.decimal)
    (R C : Nat) (hC : 0 < C) (os : S) (hos : D os) (m : Matrix R C) :
    k.text (operator_shl k hC os m) = k.text os ++ to_string hC m
    ∧ D (operator_shl k hC os m) := by
  obtain ⟨h₁, h₂⟩ := operator_shl_text_eq k D hstr hint hC os hos m
  exact ⟨by rw [h₂, operator_shl_eq_append], h₁⟩

/-- Witness for the amended C14: a stream set to `std::dec` that holds `Matrix
A is:` and a line break, as in the example program, and `mat6`. -/
theorem C14_operator_shl_matches_to_string_witness :
    0 < 3
    ∧ (BaseStream.mk "Matrix A is:\n" Basefield.dec).basefield = Basefield.dec
    ∧ (operator_shl baseStream (by decide) (BaseStream.mk "Matrix A is:\n" Basefield.dec)
        mat6).text = "Matrix A is:\n" ++ to_string (by decide) mat6
    ∧ (operator_shl baseStream (by decide) (BaseStream.mk "Matrix A is:\n" Basefield.dec)
        mat6).text = "Matrix A is:\n| 1, 2, 3 |\n| 4, 5, 6 |\n"
    ∧ operator_shl textStream (by decide) "Matrix A is:\n" mat6
        = "Matrix A is:\n" ++ to_string (by decide) mat6 :=
  ⟨by decide, rfl,
    (C14_operator_shl_matches_to_string baseStream (fun os => os.basefield = Basefield.dec)
      (fun _ _ h => ⟨h, rfl⟩) (fun os x h => ⟨h, by
        show os.text ++ os.basefield.digits x = os.text ++ x.decimal
        rw [h]; rfl⟩)
      2 3 (by decide) (BaseStream.mk "Matrix A is:\n" Basefield.dec) rfl mat6).1,
    by decide,
    (C14_operator_shl_matches_to_string textStream (fun _ => True)
      (fun _ _ _ => ⟨trivial, rfl⟩) (fun _ _ _ => ⟨trivial, rfl⟩)
      2 3 (by decide) "Matrix A is:\n" trivial mat6).1⟩

/-! ## Default construction -/

/-- C17: every element of a default-constructed matrix is the `int` zero, read
from the array, through `m(i, j)` and through `m[i][j]`; the `3 × 4` matrix of
the tests is all zero. -/
theorem C17_default_ctor_zero :
    (∀ (R C : Nat) (i : Fin R) (j : Fin C),
      (Matrix.default_ctor : Matrix R C).data_ i j = CInt.ofInt 0
      ∧ (Matrix.default_ctor : Matrix R C).operator_call_const i.val j.val
          = Except.ok (CInt.ofInt 0)
      ∧ ((Matrix.default_ctor : Matrix R C).operator_index_const i.val).map (fun row => row j)
          = Except.ok (CInt.ofInt 0))
    ∧ (∀ (i : Fin 3) (j : Fin 4),
        ((Matrix.default_ctor : Matrix 3 4).data_ i j).val = 0) := by
  refine ⟨fun R C i j => ⟨rfl, ?_, ?_⟩, by decide⟩
  · rw [operator_call_const_ok]; rfl
  · unfold Matrix.operator_index_const
    rw [dif_neg (by have := i.isLt; omega)]
    rfl

/-! ## Error messages -/

theorem rowsMessage_eq (R n : Nat) :
    Matrix.rowsMessage R n
      = "Expected " ++ Nat.repr R ++ " rows in initializer list, got " ++ Nat.repr n
          ++ " instead" := by
  apply String.ext
  simp [Matrix.rowsMessage, Utils.format_str, Utils.snprintf]

theorem colsMessage_eq (C len i : Nat) :
    Matrix.colsMessage C len i
      = "Expected " ++ Nat.repr C ++ " columns in initializer list, got " ++ Nat.repr len
          ++ " on row " ++ Nat.repr i := by
  apply String.ext
  simp [Matrix.colsMessage, Utils.format_str, Utils.snprintf]

theorem outerMessage_eq (i : Nat) :
    Utils.format_str "Index outer %zu is out of bounds" [i]
      = "Index outer " ++ Nat.repr i ++ " is out of bounds" := by
  apply String.ext
  simp [Utils.format_str, Utils.snprintf]

theorem innerMessage_eq (i : Nat) :
    Utils.format_str "index inner %zu is out of bounds" [i]
      = "index inner " ++ Nat.repr i ++ " is out of bounds" := by
  apply String.ext
  simp [Utils.format_str, Utils.snprintf]

/-- What `find?` returns on the ascending indices meets the test, and no
smaller index does. -/
theorem find_finRange_some {n : Nat} (p : Fin n → Bool) (i : Fin n)
    (h : (List.finRange n).find? p = some i) :
    p i = true ∧ ∀ k : Fin n, k < i → p k = false := by
  obtain ⟨hi, as, bs, hsplit, has⟩ := List.find?_eq_some.mp h
  refine ⟨hi, fun k hk => ?_⟩
  have hpair := List.pairwise_lt_finRange n
  rw [hsplit, List.pairwise_append] at hpair
  have hmem : k ∈ as ++ i :: bs := hsplit ▸ List.mem_finRange k
  rcases List.mem_append.mp hmem with hk' | hk'
  · simpa using has k hk'
  · rcases List.mem_cons.mp hk' with rfl | hk''
    · exact absurd hk (lt_irrefl _)
    · exact absurd hk (not_lt_of_gt ((List.pairwise_cons.mp hpair.2.1).1 k hk''))

/-- The search over the ascending indices returns the smallest index that
meets the test. -/
theorem find_finRange_least {n : Nat} (p : Fin n → Bool) (i : Fin n) (hi : p i = true)
    (hmin : ∀ k : Fin n, k < i → p k = false) :
    (List.finRange n).find? p = some i := by
  cases h : (List.finRange n).find? p with
  | none =>
    have := List.find?_eq_none.mp h i (List.mem_finRange i)
    exact absurd hi this
  | some j =>
    obtain ⟨hj, hjmin⟩ := find_finRange_some p j h
    rcases lt_trichotomy j i with hlt | heq | hgt
    · rw [hmin j hlt] at hj; cases hj
    · rw [heq]
    · rw [hjmin i hgt] at hi; cases hi

/-- C18: when the outer length `n` differs from `R`, whatever the rows'
lengths, the constructor throws `std::invalid_argument` with the text
`Expected <R> rows in initializer list, got <n> instead`; when the outer
length is `R` and `i` is the smallest index of a row whose length `len` differs
from `C`, the text is `Expected <C> columns in initializer list, got <len> on
row <i>`. -/
theorem C18_init_list_ctor_messages :
    (∀ (R C : Nat) (list : List (List CInt)), list.length ≠ R →
      (Matrix.init_list_ctor list : Except Exception (Matrix R C))
        = Except.error (Exception.invalid_argument
            ("Expected " ++ Nat.repr R ++ " rows in initializer list, got "
              ++ Nat.repr list.length ++ " instead")))
    ∧ (∀ (R C : Nat) (list : List (List CInt)) (i : Nat), list.length = R → i < R →
        (list.getD i []).length ≠ C → (∀ k, k < i → (list.getD k []).length = C) →
        (Matrix.init_list_ctor list : Except Exception (Matrix R C))
          = Except.error (Exception.invalid_argument
              ("Expected " ++ Nat.repr C ++ " columns in initializer list, got "
                ++ Nat.repr (list.getD i []).length ++ " on row " ++ Nat.repr i)))
    ∧ (Matrix.init_list_ctor [[1, 2], [3], [4, 5]] : Except Exception (Matrix 2 2))
        = Except.error (Exception.invalid_argument
            "Expected 2 rows in initializer list, got 3 instead")
    ∧ (Matrix.init_list_ctor [[1, 2], [3], [4, 5, 6]] : Except Exception (Matrix 3 2))
        = Except.error (Exception.invalid_argument
            "Expected 2 columns in initializer list, got 1 on row 1") := by
  refine ⟨fun R C list hrows => ?_, fun R C list i hrows hi hbad hmin => ?_, by decide,
    by decide⟩
  · rw [Matrix.init_list_ctor_eq, if_pos hrows, rowsMessage_eq]
  · rw [Matrix.init_list_ctor_eq, if_neg (not_not.mpr hrows),
      find_finRange_least (fun k : Fin R => decide ((list.getD k.val []).length ≠ C)) ⟨i, hi⟩
        (by simpa using hbad)
        (fun k hk => by simpa using hmin k.val hk)]
    show Except.error (Exception.invalid_argument (Matrix.colsMessage C _ i)) = _
    rw [colsMessage_eq]

/-- Witness for C18: a list of three rows for a `3 × 2` matrix whose first
wrong row is row `1`. -/
theorem C18_init_list_ctor_messages_witness :
    ([[1, 2], [3], [4, 5, 6]] : List (List CInt)).length = 3 ∧ 1 < 3
    ∧ (([[1, 2], [3], [4, 5, 6]] : List (List CInt)).getD 1 []).length ≠ 2
    ∧ (∀ k, k < 1 → (([[1, 2], [3], [4, 5, 6]] : List (List CInt)).getD k []).length = 2)
    ∧ (Matrix.init_list_ctor [[1, 2], [3], [4, 5, 6]] : Except Exception (Matrix 3 2))
        = Except.error (Exception.invalid_argument
            ("Expected " ++ Nat.repr 2 ++ " columns in initializer list, got "
              ++ Nat.repr (([[1, 2], [3], [4, 5, 6]] : List (List CInt)).getD 1 []).length
              ++ " on row " ++ Nat.repr 1)) :=
  ⟨by decide, by decide, by decide, by decide,
    C18_init_list_ctor_messages.2.1 3 2 [[1, 2], [3], [4, 5, 6]] 1 (by decide) (by decide)
      (by decide) (by decide)⟩

/-- C19, as stated, fails: the text of the error of `m(7, 0)` on a matrix of
`2` rows is that on a matrix of `3` rows, and the text of `m(0, 7)` on a
matrix of `2` columns is that on a matrix of `3` columns; the texts hold the
index `7` and no digit of the bound. -/
theorem C19_message_names_bound_counterexample :
    mat1.operator_call_const 7 0
        = Except.error (Exception.out_of_range "Index outer 7 is out of bounds")
    ∧ mat7.operator_call_const 7 0
        = Except.error (Exception.out_of_range "Index outer 7 is out of bounds")
    ∧ mat1.operator_call_const 0 7
        = Except.error (Exception.out_of_range "index inner 7 is out of bounds")
    ∧ mat6.operator_call_const 0 7
        = Except.error (Exception.out_of_range "index inner 7 is out of bounds")
    ∧ mat1.operator_call 7 0
        = Except.error (Exception.out_of_range "Index outer 7 is out of bounds")
    ∧ '2' ∉ "Index outer 7 is out of bounds".toList
    ∧ '3' ∉ "Index outer 7 is out of bounds".toList
    ∧ '2' ∉ "index inner 7 is out of bounds".toList
    ∧ '3' ∉ "index inner 7 is out of bounds".toList := by
  decide

/-- C19, amended: the error of `m(row, col)`, in both overloads, names the
offending axis and the offending index: the text is `Index outer <row> is out
of bounds` whenever `row >= R`, also when `col` is out of range too, and `index
inner <col> is out of bounds` when `row < R` and `col >= C`. -/
theorem C19_message_names_axis_and_index (R C : Nat) (m : Matrix R C) (row col : Nat) :
    (row ≥ R →
      m.operator_call_const row col
          = Except.error (Exception.out_of_range
              ("Index outer " ++ Nat.repr row ++ " is out of bounds"))
      ∧ m.operator_call row col
          = Except.error (Exception.out_of_range
              ("Index outer " ++ Nat.repr row ++ " is out of bounds")))
    ∧ (row < R → col ≥ C →
      m.operator_call_const row col
          = Except.error (Exception.out_of_range
              ("index inner " ++ Nat.repr col ++ " is out of bounds"))
      ∧ m.operator_call row col
          = Except.error (Exception.out_of_range
              ("index inner " ++ Nat.repr col ++ " is out of bounds"))) := by
  unfold Matrix.operator_call_const Matrix.operator_call Utils.throw_out_of_range_error
  refine ⟨fun h₁ => ?_, fun h₁ h₂ => ?_⟩
  · rw [dif_pos (Or.inr h₁), dif_pos h₁, outerMessage_eq]
    exact ⟨rfl, rfl⟩
  · have a₁ : ¬ (row < 0 ∨ row ≥ R) := by omega
    have a₂ : ¬ row ≥ R := by omega
    have b₁ : col < 0 ∨ col ≥ C := Or.inr h₂
    rw [dif_neg a₁, dif_pos b₁, dif_neg a₂, dif_pos h₂, innerMessage_eq]
    exact ⟨rfl, rfl⟩

/-- Witness for the amended C19 on `mat1`: row index `7` with column index `9`
gives the row text, and row index `1` with column index `9` the column text. -/
theorem C19_message_names_axis_and_index_witness :
    7 ≥ 2 ∧ 1 < 2 ∧ 9 ≥ 2
    ∧ mat1.operator_call_const 7 9
        = Except.error (Exception.out_of_range
            ("Index outer " ++ Nat.repr 7 ++ " is out of bounds"))
    ∧ mat1.operator_call_const 1 9
        = Except.error (Exception.out_of_range
            ("index inner " ++ Nat.repr 9 ++ " is out of bounds")) :=
  ⟨by decide, by decide, by decide,
    ((C19_message_names_axis_and_index 2 2 mat1 7 9).1 (by decide)).1,
    ((C19_message_names_axis_and_index 2 2 mat1 1 9).2 (by decide) (by decide)).1⟩

/-! ## Writes, copies and assignments on the store -/

section StoreWrites

variable {R C : Nat}

theorem setCell_other (d : Data R C) (i i' : Fin R) (j j' : Fin C) (v : CInt)
    (h : (i', j') ≠ (i, j)) : setCell d i j v i' j' = d i' j' := by
  unfold setCell
  by_cases hi : i' = i
  · subst hi
    have hj : j' ≠ j := fun hj => h (by rw [hj])
    simp [Function.update_noteq hj]
  · simp [Function.update_noteq hi]

theorem write_obj_same (σ : Store R C) (p : Ref) (i : Fin R) (j : Fin C) (v : CInt) :
    (σ.write p i j v).obj p = ⟨setCell (σ.obj p).data_ i j v⟩ := by
  simp [Store.write]

theorem write_obj_other (σ : Store R C) (p q : Ref) (i : Fin R) (j : Fin C) (v : CInt)
    (h : q ≠ p) : (σ.write p i j v).obj q = σ.obj q := by
  simp [Store.write, Function.update_noteq h]

end StoreWrites

theorem assign_call_ok {R C : Nat} (σ : Store R C) (this : Ref) (r c : Nat) (hr : r < R)
    (hc : c < C) (v : CInt) :
    Matrix.assign_call this r c v σ = Except.ok (σ.write this ⟨r, hr⟩ ⟨c, hc⟩ v) := by
  unfold Matrix.assign_call
  rw [((operator_call_spec R C (σ.obj this) r c).2.2 hr hc).2]

theorem assign_index_ok {R C : Nat} (σ : Store R C) (this : Ref) (r : Nat) (hr : r < R)
    (col : Fin C) (v : CInt) :
    Matrix.assign_index this r col v σ = Except.ok (σ.write this ⟨r, hr⟩ col v) := by
  unfold Matrix.assign_index Matrix.operator_index
  rw [dif_neg (by omega)]

theorem operator_index_const_ok {R C : Nat} (m : Matrix R C) (i : Fin R) :
    m.operator_index_const i.val = Except.ok (m.data_ i) := by
  unfold Matrix.operator_index_const
  rw [dif_neg (by have := i.isLt; omega)]

/-- C20: for in-bounds `(r, c)`, `m(r, c) = v` and `m[r][c] = v` succeed and
give the same store, in which `m(r, c)` and `m[r][c]` read `v`, every other
element of `m` holds what it held before, and every other object is as
before. -/
theorem C20_write_one_element (R C : Nat) (σ : Store R C) (m : Ref) (r c : Nat)
    (hr : r < R) (hc : c < C) (v : CInt) :
    Matrix.assign_call m r c v σ = Except.ok (σ.write m ⟨r, hr⟩ ⟨c, hc⟩ v)
    ∧ Matrix.assign_index m r ⟨c, hc⟩ v σ = Except.ok (σ.write m ⟨r, hr⟩ ⟨c, hc⟩ v)
    ∧ ((σ.write m ⟨r, hr⟩ ⟨c, hc⟩ v).obj m).operator_call_const r c = Except.ok v
    ∧ (((σ.write m ⟨r, hr⟩ ⟨c, hc⟩ v).obj m).operator_index_const r).map
        (fun row => row ⟨c, hc⟩) = Except.ok v
    ∧ (∀ (i : Fin R) (j : Fin C), (i, j) ≠ (⟨r, hr⟩, ⟨c, hc⟩) →
        ((σ.write m ⟨r, hr⟩ ⟨c, hc⟩ v).obj m).data_ i j = (σ.obj m).data_ i j)
    ∧ (∀ p, p ≠ m → (σ.write m ⟨r, hr⟩ ⟨c, hc⟩ v).obj p = σ.obj p)
    ∧ (σ.write m ⟨r, hr⟩ ⟨c, hc⟩ v).next = σ.next := by
  refine ⟨assign_call_ok σ m r c hr hc v, assign_index_ok σ m r hr ⟨c, hc⟩ v, ?_, ?_,
    fun i j hij => ?_, fun p hp => write_obj_other σ m p _ _ v hp, rfl⟩
  · rw [operator_call_const_ok _ ⟨r, hr⟩ ⟨c, hc⟩, write_obj_same]
    exact congrArg Except.ok (setCell_same _ _ _ _)
  · rw [operator_index_const_ok _ ⟨r, hr⟩, write_obj_same]
    show Except.ok (setCell (σ.obj m).data_ ⟨r, hr⟩ ⟨c, hc⟩ v ⟨r, hr⟩ ⟨c, hc⟩) = Except.ok v
    rw [setCell_same]
  · rw [write_obj_same]
    exact setCell_other _ _ _ _ _ v hij

/-- Witness for C20: the writes `mat[0][1] = 5` and `mat(1, 0) = 6` of
`test_mutators`, on the object at address `0`. -/
theorem C20_write_one_element_witness :
    0 < 2 ∧ 1 < 2
    ∧ Matrix.assign_index 0 0 ⟨1, by decide⟩ (CInt.ofInt 5) arithmeticStore
        = Except.ok (arithmeticStore.write 0 ⟨0, by decide⟩ ⟨1, by decide⟩ (CInt.ofInt 5))
    ∧ (arithmeticStore.write 0 ⟨0, by decide⟩ ⟨1, by decide⟩ (CInt.ofInt 5)).obj 0
        = lit ![![1, 5], ![3, 4]]
    ∧ Matrix.assign_call 0 1 0 (CInt.ofInt 6) arithmeticStore
        = Except.ok (arithmeticStore.write 0 ⟨1, by decide⟩ ⟨0, by decide⟩ (CInt.ofInt 6))
    ∧ (arithmeticStore.write 0 ⟨1, by decide⟩ ⟨0, by decide⟩ (CInt.ofInt 6)).obj 0
        = lit ![![1, 2], ![6, 4]] :=
  ⟨by decide, by decide,
    (C20_write_one_element 2 2 arithmeticStore 0 0 1 (by decide) (by decide) (CInt.ofInt 5)).2.1,
    by decide,
    (C20_write_one_element 2 2 arithmeticStore 0 1 0 (by decide) (by decide) (CInt.ofInt 6)).1,
    by decide⟩

/-- C15: a copy-constructed matrix compares equal to the original, which the
construction leaves as it was, and the two are independent: for in-bounds
`(r, c)`, writing `v` to the copy leaves the original unchanged, and writing
`v` to the original leaves the copy unchanged. -/
theorem C15_copy_independent (R C : Nat) (σ : Store R C) (a : Ref) (ha : a < σ.next)
    (r c : Nat) (hr : r < R) (hc : c < C) (v : CInt) :
    Matrix.operator_eq ((Matrix.copy_construct a σ).1.obj (Matrix.copy_construct a σ).2)
        ((Matrix.copy_construct a σ).1.obj a) = true
    ∧ (Matrix.copy_construct a σ).1.obj a = σ.obj a
    ∧ (Matrix.copy_construct a σ).2 ≠ a
    ∧ (∃ σ', Matrix.assign_call (Matrix.copy_construct a σ).2 r c v (Matrix.copy_construct a σ).1
          = Except.ok σ'
        ∧ (σ'.obj (Matrix.copy_construct a σ).2).data_ ⟨r, hr⟩ ⟨c, hc⟩ = v
        ∧ σ'.obj a = σ.obj a)
    ∧ (∃ σ', Matrix.assign_call a r c v (Matrix.copy_construct a σ).1 = Except.ok σ'
        ∧ (σ'.obj a).data_ ⟨r, hr⟩ ⟨c, hc⟩ = v
        ∧ σ'.obj (Matrix.copy_construct a σ).2 = σ.obj a) := by
  have hne : a ≠ σ.next := Nat.ne_of_lt ha
  have hcopy : (Matrix.copy_construct a σ).1.obj (Matrix.copy_construct a σ).2 = σ.obj a := by
    simp [Matrix.copy_construct, Store.alloc, Matrix.copy_ctor, Matrix.array_ctor]
  have horig : (Matrix.copy_construct a σ).1.obj a = σ.obj a := by
    simp [Matrix.copy_construct, Store.alloc, Function.update_noteq hne]
  have hfresh : (Matrix.copy_construct a σ).2 ≠ a := fun h => hne h.symm
  refine ⟨?_, horig, hfresh, ⟨_, assign_call_ok _ _ r c hr hc v, ?_, ?_⟩,
    ⟨_, assign_call_ok _ _ r c hr hc v, ?_, ?_⟩⟩
  · rw [hcopy, horig]; exact (Matrix.operator_eq_iff_eq _ _).mpr rfl
  · rw [write_obj_same]; exact setCell_same _ _ _ _
  · rw [write_obj_other _ _ _ _ _ v hfresh.symm, horig]
  · rw [write_obj_same]; exact setCell_same _ _ _ _
  · rw [write_obj_other _ _ _ _ _ v hfresh, hcopy]

/-- Witness for C15: a copy of `mat1` in the store of the arithmetic test,
written at `(1, 0)`. -/
theorem C15_copy_independent_witness :
    (0 : Ref) < arithmeticStore.next ∧ 1 < 2 ∧ 0 < 2
    ∧ (∃ σ', Matrix.assign_call (Matrix.copy_construct 0 arithmeticStore).2 1 0 (CInt.ofInt 6)
          (Matrix.copy_construct 0 arithmeticStore).1 = Except.ok σ'
        ∧ (σ'.obj (Matrix.copy_construct 0 arithmeticStore).2).data_
            ⟨1, by decide⟩ ⟨0, by decide⟩ = CInt.ofInt 6
        ∧ σ'.obj 0 = arithmeticStore.obj 0) :=
  ⟨by decide, by decide, by decide,
    (C15_copy_independent 2 2 arithmeticStore 0 (by decide) 1 0 (by decide) (by decide)
      (CInt.ofInt 6)).2.2.2.1⟩

theorem operator_assign_obj {R C : Nat} (σ : Store R C) (this other p : Ref) :
    (Matrix.operator_assign this other σ).1.obj p
      = if p = this then σ.obj other else σ.obj p := by
  unfold Matrix.operator_assign Store.withData
  by_cases h : p = this
  · subst h; simp
  · simp [h, Function.update_noteq h]

theorem operator_move_assign_obj {R C : Nat} (σ : Store R C) (this other p : Ref) :
    (Matrix.operator_move_assign this other σ).1.obj p
      = if p = this then σ.obj other else σ.obj p :=
  operator_assign_obj σ this other p

/-- C16: after the copy assignment `b = a` and after the move assignment
`b = std::move(a)` the destination holds the values `a` held, `a` still holds
them, and the two compare equal; assigning an object to itself, by copy or by
move, leaves the store as it was; after `b = c = a` both `b` and `c` hold the
values of `a`; and after `b = std::move(a)` the chained
`b = std::move(c) = std::move(a)` of the test still gives `b` and `c` the
values `a` held at first; a matrix move-constructed from an existing `a` holds
the values of `a`, which `a` keeps. -/
theorem C16_assignment :
    (∀ (R C : Nat) (σ : Store R C) (a b c : Ref),
      ((Matrix.operator_assign b a σ).2 = b
        ∧ (Matrix.operator_assign b a σ).1.obj b = σ.obj a
        ∧ (Matrix.operator_assign b a σ).1.obj a = σ.obj a
        ∧ Matrix.operator_eq ((Matrix.operator_assign b a σ).1.obj a)
            ((Matrix.operator_assign b a σ).1.obj b) = true)
      ∧ ((Matrix.operator_move_assign b a σ).2 = b
        ∧ (Matrix.operator_move_assign b a σ).1.obj b = σ.obj a
        ∧ (Matrix.operator_move_assign b a σ).1.obj a = σ.obj a
        ∧ Matrix.operator_eq ((Matrix.operator_move_assign b a σ).1.obj a)
            ((Matrix.operator_move_assign b a σ).1.obj b) = true)
      ∧ (Matrix.operator_assign a a σ).1 = σ
      ∧ (Matrix.operator_move_assign a a σ).1 = σ
      ∧ ((Matrix.operator_assign b (Matrix.operator_assign c a σ).2
              (Matrix.operator_assign c a σ).1).1.obj b = σ.obj a
        ∧ (Matrix.operator_assign b (Matrix.operator_assign c a σ).2
              (Matrix.operator_assign c a σ).1).1.obj c = σ.obj a
        ∧ (Matrix.operator_assign b (Matrix.operator_assign c a σ).2
              (Matrix.operator_assign c a σ).1).1.obj a = σ.obj a)
      ∧ ((Matrix.operator_assign b
              (Matrix.operator_move_assign c a (Matrix.operator_move_assign b a σ).1).2
              (Matrix.operator_move_assign c a (Matrix.operator_move_assign b a σ).1).1).1.obj b
            = σ.obj a
        ∧ (Matrix.operator_assign b
              (Matrix.operator_move_assign c a (Matrix.operator_move_assign b a σ).1).2
              (Matrix.operator_move_assign c a (Matrix.operator_move_assign b a σ).1).1).1.obj c
            = σ.obj a)
      ∧ (a < σ.next →
          (Matrix.move_construct a σ).1.obj (Matrix.move_construct a σ).2 = σ.obj a
          ∧ (Matrix.move_construct a σ).1.obj a = σ.obj a))
    ∧ (Matrix.operator_assign 1 (Matrix.operator_assign 2 0 assignmentStore).2
          (Matrix.operator_assign 2 0 assignmentStore).1).1.obj 1 = mat1
    ∧ (Matrix.operator_assign 1 (Matrix.operator_assign 2 0 assignmentStore).2
          (Matrix.operator_assign 2 0 assignmentStore).1).1.obj 2 = mat1 := by
  refine ⟨fun R C σ a b c => ⟨?_, ?_, ?_, ?_, ?_, ?_, fun ha => ?_⟩, by decide, by decide⟩
  · have hb : (Matrix.operator_assign b a σ).1.obj b = σ.obj a := by
      rw [operator_assign_obj, if_pos rfl]
    have ha : (Matrix.operator_assign b a σ).1.obj a = σ.obj a := by
      rw [operator_assign_obj]; split_ifs <;> rfl
    exact ⟨rfl, hb, ha, by rw [ha, hb]; exact (Matrix.operator_eq_iff_eq _ _).mpr rfl⟩
  · have hb : (Matrix.operator_move_assign b a σ).1.obj b = σ.obj a := by
      rw [operator_move_assign_obj, if_pos rfl]
    have ha : (Matrix.operator_move_assign b a σ).1.obj a = σ.obj a := by
      rw [operator_move_assign_obj]; split_ifs <;> rfl
    exact ⟨rfl, hb, ha, by rw [ha, hb]; exact (Matrix.operator_eq_iff_eq _ _).mpr rfl⟩
  · exact Store.withData_self σ a
  · exact Store.withData_self σ a
  · have h₂ : (Matrix.operator_assign c a σ).2 = c := rfl
    simp only [operator_assign_obj, h₂]
    refine ⟨?_, ?_, ?_⟩ <;> split_ifs <;> rfl
  · have h₂ : ∀ τ : Store R C, (Matrix.operator_move_assign c a τ).2 = c := fun _ => rfl
    simp only [operator_assign_obj, operator_move_assign_obj, h₂]
    refine ⟨?_, ?_⟩ <;> split_ifs <;> rfl
  · have hne : a ≠ σ.next := Nat.ne_of_lt ha
    constructor
    · simp [Matrix.move_construct, Store.alloc, Matrix.move_ctor, Matrix.array_ctor]
    · simp [Matrix.move_construct, Store.alloc, Function.update_noteq hne]

/-- Witness for C16: the object at address `0` of the assignment test exists,
and a matrix move-constructed from it holds its values, which it keeps. -/
theorem C16_assignment_witness :
    (0 : Ref) < assignmentStore.next
    ∧ (Matrix.move_construct 0 assignmentStore).1.obj (Matrix.move_construct 0 assignmentStore).2
        = assignmentStore.obj 0
    ∧ (Matrix.move_construct 0 assignmentStore).1.obj 0 = assignmentStore.obj 0 :=
  ⟨by decide, (C16_assignment.1 2 2 assignmentStore 0 1 2).2.2.2.2.2.2 (by decide)⟩

/-! ## The product with scaling and with addition -/

theorem plusOfValues_eq {R C : Nat} (τ : Store R C) (x y : Matrix R C) :
    plusOfValues τ x y = ⟨fun i j => x.data_ i j + y.data_ i j⟩ := by
  have hr : (τ.alloc x).1.next < ((τ.alloc x).1.alloc y).1.next := Nat.lt_succ_self _
  have h := (operator_plus_result (τ.alloc x).2 ((τ.alloc x).1.alloc y).2
    ((τ.alloc x).1.alloc y).1 hr).2.2.2
  have hne : τ.next ≠ τ.next + 1 := Nat.ne_of_lt (Nat.lt_succ_self _)
  show (operator_plus (τ.alloc x).2 ((τ.alloc x).1.alloc y).2 ((τ.alloc x).1.alloc y).1).1.obj
    (operator_plus (τ.alloc x).2 ((τ.alloc x).1.alloc y).2 ((τ.alloc x).1.alloc y).1).2 = _
  rw [h]
  simp [Store.read, Store.alloc, Function.update_noteq hne, CInt.add_eq]

theorem operator_plus_value {R C : Nat} (σ : Store R C) (lhs rhs : Ref) (hr : rhs < σ.next) :
    (operator_plus lhs rhs σ).1.obj (operator_plus lhs rhs σ).2
      = ⟨fun i j => (σ.obj lhs).data_ i j + (σ.obj rhs).data_ i j⟩ :=
  (operator_plus_result lhs rhs σ hr).2.2.2

/-- C22: the matrix product distributes over `operator+` on both sides:
`A * (B + C) == (A * B) + (A * C)` and `(A + B) * C == (A * C) + (B * C)`, for
operands of `+` that are existing objects. -/
theorem C22_product_distributes (M N P : Nat) :
    (∀ (A : Matrix M N) (σ : Store N P) (b c : Ref) (τ : Store M P),
      b < σ.next → c < σ.next →
      Matrix.operator_eq
        (operator_mul A ((operator_plus b c σ).1.obj (operator_plus b c σ).2))
        (plusOfValues τ (operator_mul A (σ.obj b)) (operator_mul A (σ.obj c))) = true)
    ∧ (∀ (σ : Store M N) (a b : Ref) (C : Matrix N P) (τ : Store M P),
      a < σ.next → b < σ.next →
      Matrix.operator_eq
        (operator_mul ((operator_plus a b σ).1.obj (operator_plus a b σ).2) C)
        (plusOfValues τ (operator_mul (σ.obj a) C) (operator_mul (σ.obj b) C)) = true) := by
  refine ⟨fun A σ b c τ _ hc => ?_, fun σ a b C τ _ hb => ?_⟩
  · rw [Matrix.operator_eq_iff]
    intro i j
    rw [operator_plus_value σ b c hc, plusOfValues_eq]
    simp only [operator_mul_apply, dotAscending_eq_sum, mul_add, Finset.sum_add_distrib]
  · rw [Matrix.operator_eq_iff]
    intro i j
    rw [operator_plus_value σ a b hb, plusOfValues_eq]
    simp only [operator_mul_apply, dotAscending_eq_sum, add_mul, Finset.sum_add_distrib]

/-- Witness for C22 on the matrices of the example program, `matrixB` and
`matrixC` at the addresses `0` and `1`, and on `mat1`, `mat2` and `mat2` again
as the right factor. -/
theorem C22_product_distributes_witness :
    (0 : Ref) < exampleStore.next ∧ (1 : Ref) < exampleStore.next
    ∧ Matrix.operator_eq
        (operator_mul matrixA ((operator_plus 0 1 exampleStore).1.obj
          (operator_plus 0 1 exampleStore).2))
        (plusOfValues Store.empty (operator_mul matrixA (exampleStore.obj 0))
          (operator_mul matrixA (exampleStore.obj 1))) = true
    ∧ operator_mul matrixA ((operator_plus 0 1 exampleStore).1.obj
          (operator_plus 0 1 exampleStore).2)
        = lit ![![99, 105], ![118, 210], ![97, 106]]
    ∧ (0 : Ref) < arithmeticStore.next ∧ (1 : Ref) < arithmeticStore.next
    ∧ Matrix.operator_eq
        (operator_mul ((operator_plus 0 1 arithmeticStore).1.obj
          (operator_plus 0 1 arithmeticStore).2) mat2)
        (plusOfValues Store.empty (operator_mul (arithmeticStore.obj 0) mat2)
          (operator_mul (arithmeticStore.obj 1) mat2)) = true :=
  ⟨by decide, by decide,
    (C22_product_distributes 3 4 2).1 matrixA exampleStore 0 1 Store.empty (by decide) (by decide),
    by decide, by decide, by decide,
    (C22_product_distributes 2 2 2).2 arithmeticStore 0 1 mat2 Store.empty (by decide)
      (by decide)⟩

end MatrixLib
